import Mathlib

/-!
# A formal model of the task-sync reconciliation engine

This file gives a shallow embedding, in Lean 4, of the core of the
`task-sync` repository:

* the data model (`src/model.ts`),
* the JSON state store helpers (`src/store/jsonStore.ts`),
* the file lock (`src/store/lock.ts`),
* the N-way sync engine `SyncEngine.syncMany` (`src/sync/engine.ts`).

Conventions of the embedding:

* Timestamps (`updatedAt`, `deletedAt`, `lastSyncAt`, `now`) are modelled as
  the natural number returned by `Date.parse` on the ISO string the code
  stores; `newer a b = Date.parse a > Date.parse b` becomes `a > b` on `Nat`,
  and all calls to `new Date().toISOString()` / `Date.now()` inside a single
  cycle are modelled by one `now` parameter.
* Provider I/O is modelled by data: a provider value carries the *results*
  of its `listTasks(lastSyncAt)` and `listTasks(undefined)` calls as
  `Except String (List Task)` (an `error` models a thrown exception), and
  `upsertTask` / `deleteTask` as result functions.  Every provider call that
  the engine actually performs is additionally recorded in a write log, so
  frame properties ("no write happens") are statable.
* `randomUUID` is modelled by a threaded counter producing fresh ids.
* JavaScript `Map` / object-literal key order is insertion order; both are
  modelled as association lists that preserve insertion order.
-/

namespace TaskSync

/-- Parsed timestamps (`Date.parse` of the stored ISO strings). -/
abbrev Time := Nat

/-- `TaskStatus` from `src/model.ts`. -/
inductive TaskStatus
  | active
  | completed
  | deleted
deriving DecidableEq, Repr

/-- `Importance` from `src/model.ts`. -/
inductive Importance
  | low
  | normal
  | high
deriving DecidableEq, Repr

/-- `ChecklistItem` from `src/model.ts`. -/
structure ChecklistItem where
  text : String
  checked : Bool
deriving DecidableEq, Repr

/-- `Task` from `src/model.ts`.  `metadata` is opaque to the engine and is
modelled by an opaque optional string. -/
structure Task where
  id : String
  title : String
  notes : Option String := none
  status : TaskStatus
  dueAt : Option String := none
  dueTime : Option String := none
  reminder : Option String := none
  recurrence : Option String := none
  categories : Option (List String) := none
  importance : Option Importance := none
  steps : Option (List ChecklistItem) := none
  startAt : Option String := none
  metadata : Option String := none
  updatedAt : Time
deriving DecidableEq, Repr

/-- The canonical snapshot `Omit<Task, 'id'>` stored in a mapping
(`MappingRecord.canonical` in `src/store/jsonStore.ts`). -/
structure CanonicalData where
  title : String
  notes : Option String := none
  dueAt : Option String := none
  dueTime : Option String := none
  status : TaskStatus
  reminder : Option String := none
  recurrence : Option String := none
  categories : Option (List String) := none
  importance : Option Importance := none
  steps : Option (List ChecklistItem) := none
  startAt : Option String := none
  metadata : Option String := none
  updatedAt : Time
deriving DecidableEq, Repr

/-- The field set of the field-level merger (`engine.ts`, the `fields`
array inside `syncMany`), in source order. -/
inductive Field
  | title
  | notes
  | dueAt
  | status
  | dueTime
  | reminder
  | recurrence
  | categories
  | importance
  | steps
  | startAt
deriving DecidableEq, Repr

/-- The `fields` list of `syncMany`, in source order. -/
def fields : List Field :=
  [.title, .notes, .dueAt, .status,
   .dueTime, .reminder, .recurrence, .categories, .importance, .steps, .startAt]

/-- A dynamically typed field value, as it flows through `fieldEqual` and
`assign` in `engine.ts`.  `str none` / `stat none` / … model JavaScript
`undefined` for the respective field. -/
inductive FieldVal
  | str (s : Option String)
  | stat (s : Option TaskStatus)
  | imp (i : Option Importance)
  | cats (l : Option (List String))
  | chk (l : Option (List ChecklistItem))
deriving DecidableEq, Repr

/-- Read a field of a `Task` (`t[f]` in `engine.ts`). -/
def Task.get (t : Task) : Field → FieldVal
  | .title => .str (some t.title)
  | .notes => .str t.notes
  | .dueAt => .str t.dueAt
  | .status => .stat (some t.status)
  | .dueTime => .str t.dueTime
  | .reminder => .str t.reminder
  | .recurrence => .str t.recurrence
  | .categories => .cats t.categories
  | .importance => .imp t.importance
  | .steps => .chk t.steps
  | .startAt => .str t.startAt

/-- Read a field of a canonical snapshot (`baseline[f]`, `canonical[f]`). -/
def CanonicalData.get (c : CanonicalData) : Field → FieldVal
  | .title => .str (some c.title)
  | .notes => .str c.notes
  | .dueAt => .str c.dueAt
  | .status => .stat (some c.status)
  | .dueTime => .str c.dueTime
  | .reminder => .str c.reminder
  | .recurrence => .str c.recurrence
  | .categories => .cats c.categories
  | .importance => .imp c.importance
  | .steps => .chk c.steps
  | .startAt => .str c.startAt

/-- The JavaScript `undefined`, typed per field (used as the baseline value
when a mapping has no stored canonical snapshot yet). -/
def Field.undef : Field → FieldVal
  | .status => .stat none
  | .importance => .imp none
  | .categories => .cats none
  | .steps => .chk none
  | _ => .str none

/-- ASCII whitespace, the relevant fragment of JavaScript's `\s` /
`String.prototype.trim` character class. -/
def jsWS (c : Char) : Bool :=
  c == ' ' || c == '\t' || c == '\n' || c == '\r'

/-- JavaScript `s.trim()` (restricted to ASCII whitespace). -/
def jsTrim (s : String) : String :=
  String.mk (((s.toList.dropWhile jsWS).reverse.dropWhile jsWS).reverse)

/-- `((a as string) ?? '').split('T')[0]` — the date-only prefix used by
`fieldEqual` for `dueAt` / `startAt`: the characters before the first `'T'`. -/
def dateOnly (s : Option String) : String :=
  String.mk (((s.getD "").toList).takeWhile (fun c => c != 'T'))

/-- `normField` from `engine.ts`: `(s ?? '').trim()`. -/
def normField (s : Option String) : String :=
  jsTrim (s.getD "")

/-- `fieldEqual(field, a, b)` from `engine.ts`: semantic equality for a task
field.  Date-only fields compare by `YYYY-MM-DD` prefix, `notes` compares
trimmed, array fields compare by (injective) JSON serialization — i.e.
structurally — and the remaining fields compare with `(a ?? '') === (b ?? '')`
(nullish collapse, which for the enumerated `status` / `importance` strings
coincides with equality of the optional values). -/
def fieldEqual (f : Field) (a b : FieldVal) : Bool :=
  match f with
  | .dueAt | .startAt =>
    match a, b with
    | .str x, .str y => dateOnly x == dateOnly y
    | _, _ => false
  | .notes =>
    match a, b with
    | .str x, .str y => normField x == normField y
    | _, _ => false
  | .categories =>
    match a, b with
    | .cats x, .cats y => x == y
    | _, _ => false
  | .steps =>
    match a, b with
    | .chk x, .chk y => x == y
    | _, _ => false
  | .status =>
    match a, b with
    | .stat x, .stat y => x == y
    | _, _ => false
  | .importance =>
    match a, b with
    | .imp x, .imp y => x == y
    | _, _ => false
  | .title | .dueTime | .reminder | .recurrence =>
    match a, b with
    | .str x, .str y => x.getD "" == y.getD ""
    | _, _ => false

/-- `assign(field, val)` from `engine.ts`: write a field value into the
canonical snapshot.  The `getD` defaults in the `title` / `status` cases are
unreachable: assigned values always come from `Task.get`, which yields
`some` for these two mandatory fields.  Ill-typed combinations cannot arise
for the same reason and leave the snapshot unchanged. -/
def CanonicalData.set (c : CanonicalData) (f : Field) (v : FieldVal) : CanonicalData :=
  match f, v with
  | .title, .str s => { c with title := s.getD c.title }
  | .notes, .str s => { c with notes := s }
  | .dueAt, .str s => { c with dueAt := s }
  | .status, .stat s => { c with status := s.getD c.status }
  | .dueTime, .str s => { c with dueTime := s }
  | .reminder, .str s => { c with reminder := s }
  | .recurrence, .str s => { c with recurrence := s }
  | .categories, .cats l => { c with categories := l }
  | .importance, .imp i => { c with importance := i }
  | .steps, .chk l => { c with steps := l }
  | .startAt, .str s => { c with startAt := s }
  | _, _ => c

/-- Collapse every run of whitespace into a single space
(the `replace(/\s+/g, ' ')` step of `norm`).  The boolean argument records
whether the previous character was part of a whitespace run. -/
def collapseWS : Bool → List Char → List Char
  | _, [] => []
  | prevWS, c :: cs =>
    if jsWS c then
      if prevWS then collapseWS true cs else ' ' :: collapseWS true cs
    else
      c :: collapseWS false cs

/-- JavaScript `c.toLowerCase()` on one ASCII character. -/
def lowerChar (c : Char) : Char :=
  if 'A' ≤ c && c ≤ 'Z' then Char.ofNat (c.toNat + 32) else c

/-- `norm` from `engine.ts`:
`(s ?? '').trim().replace(/\s+/g, ' ').toLowerCase()`. -/
def norm (s : Option String) : String :=
  String.mk (((jsTrim (s.getD "")).toList |> collapseWS false).map lowerChar)

/-- `matchKey` from `engine.ts`: the cold-start grouping key
`norm(title) + "\n" + norm(notes)`. -/
def matchKey (t : Task) : String :=
  norm (some t.title) ++ "\n" ++ norm t.notes

/-! ## The state store (`src/store/jsonStore.ts`) -/

/-- `MappingRecord`.  `byProvider` is a JavaScript object with string keys
and is modelled as an insertion-ordered association list with unique keys;
`""` values model the falsy empty string the engine guards against. -/
structure MappingRecord where
  canonicalId : String
  byProvider : List (String × String)
  canonical : Option CanonicalData := none
  updatedAt : Time
deriving DecidableEq, Repr

/-- `TombstoneRecord`. -/
structure TombstoneRecord where
  provider : String
  id : String
  deletedAt : Time
deriving DecidableEq, Repr

/-- `SyncState` (schema version 1). -/
structure SyncState where
  version : Nat := 1
  lastSyncAt : Option Time := none
  mappings : List MappingRecord := []
  tombstones : List TombstoneRecord := []
deriving DecidableEq, Repr

/-- `DEFAULT_STATE` from `jsonStore.ts`. -/
def DEFAULT_STATE : SyncState := {}

/-- `byProvider[provider]` — object property read. -/
def bpGet (bp : List (String × String)) (p : String) : Option String :=
  (bp.find? (fun kv => kv.1 == p)).map (fun kv => kv.2)

/-- `byProvider[provider] = id` — object property write: overwrite in place
when the key exists, append otherwise. -/
def bpSet (bp : List (String × String)) (p v : String) : List (String × String) :=
  if bp.any (fun kv => kv.1 == p) then
    bp.map (fun kv => if kv.1 == p then (p, v) else kv)
  else
    bp ++ [(p, v)]

/-- `JsonStore.findMapping`: the first mapping whose `byProvider[provider]`
is exactly `id`. -/
def findMapping (s : SyncState) (provider id : String) : Option MappingRecord :=
  s.mappings.find? (fun m => bpGet m.byProvider provider == some id)

/-- `JsonStore.isTombstoned`. -/
def isTombstoned (s : SyncState) (provider id : String) : Bool :=
  s.tombstones.any (fun t => t.provider == provider && t.id == id)

/-- `JsonStore.addTombstone`: pushes a `{provider, id, deletedAt}` record
unless one for the same `(provider, id)` already exists. -/
def addTombstone (s : SyncState) (provider id : String) (deletedAt : Time) : SyncState :=
  if isTombstoned s provider id then s
  else { s with tombstones := s.tombstones ++ [⟨provider, id, deletedAt⟩] }

/-- `JsonStore.pruneExpiredTombstones`: keeps tombstones with
`now - deletedAt <= ttlDays * 86_400_000`; a zero `ttlMs` (from
`Math.max(0, ttlDays)`) disables pruning entirely (`if (!ttlMs) return 0`).
`Nat` subtraction truncates at zero exactly as the negative JavaScript
difference also satisfies the `<=` test. -/
def pruneExpiredTombstones (s : SyncState) (ttlDays : Nat) (now : Time) : SyncState :=
  let ttlMs := ttlDays * 86400000
  if ttlMs == 0 then s
  else { s with tombstones := s.tombstones.filter (fun t => now - t.deletedAt ≤ ttlMs) }

/-- `JsonStore.removeMapping`. -/
def removeMapping (s : SyncState) (canonicalId : String) : SyncState :=
  { s with mappings := s.mappings.filter (fun m => m.canonicalId != canonicalId) }

/-- Rewrite the mapping with the given `canonicalId` in place (the
functional rendering of mutating the record object held in `state.mappings`). -/
def updateMapping (s : SyncState) (canonicalId : String) (f : MappingRecord → MappingRecord) : SyncState :=
  { s with mappings := s.mappings.map (fun m => if m.canonicalId == canonicalId then f m else m) }

/-- `JsonStore.upsertProviderId`.  In the engine it is only ever called with
the `canonicalId` of a mapping present in the state, so the source's
`throw new Error` branch for an unknown id is unreachable and is modelled as
a no-op. -/
def upsertProviderId (s : SyncState) (canonicalId provider id : String) (now : Time) : SyncState :=
  updateMapping s canonicalId (fun m =>
    { m with byProvider := bpSet m.byProvider provider id, updatedAt := now })

/-- `JsonStore.upsertCanonicalSnapshot`. -/
def upsertCanonicalSnapshot (s : SyncState) (canonicalId : String) (data : CanonicalData) (now : Time) : SyncState :=
  updateMapping s canonicalId (fun m => { m with canonical := some data, updatedAt := now })

/-! ## Loading the state file (`JsonStore.load` / `migrate`) -/

/-- The parsed shape `LegacySyncState`: every field of the JSON document is
optional.  (`version: 1` documents cast `mappings` / `tombstones` without
normalization, which the typed lists model.) -/
structure LegacyState where
  version : Option Nat := none
  lastSyncAt : Option Time := none
  mappings : Option (List MappingRecord) := none
  tombstones : Option (List TombstoneRecord) := none
deriving DecidableEq, Repr

/-- `JsonStore.migrate`: `version ?? 0`; a v1 document gets defaults filled
in, a v0 document is upgraded field by field (`byProvider ?? {}` and
`updatedAt ?? now` are identities in the typed model). -/
def migrate (now : Time) (input : LegacyState) : SyncState :=
  let version := input.version.getD 0
  if version == 1 then
    { version := 1
      lastSyncAt := input.lastSyncAt
      mappings := input.mappings.getD []
      tombstones := input.tombstones.getD [] }
  else
    { version := 1
      lastSyncAt := input.lastSyncAt
      mappings := (input.mappings.getD []).map (fun m =>
        { canonicalId := m.canonicalId
          byProvider := m.byProvider
          canonical := m.canonical
          updatedAt := m.updatedAt })
      tombstones := input.tombstones.getD [] }

/-- The possible outcomes of `readFile` + `JSON.parse` on the state file:
the file is missing (`readFile` throws `ENOENT`), the file exists but
`JSON.parse` throws (`unparsable`), or parsing succeeds. -/
inductive StateFileRead
  | missing
  | unparsable
  | parsed (s : LegacyState)
deriving DecidableEq, Repr

/-- `JsonStore.load`.  The source wraps `readFile`, `JSON.parse` and
`migrate` in a single `try { ... } catch { return structuredClone(DEFAULT_STATE) }`:
the one catch-all handles *both* a missing file and a malformed file, so
`load` never fails — a corrupt state file also yields the fresh default
state. -/
def load (now : Time) (r : StateFileRead) : Except String SyncState :=
  match r with
  | .parsed s => .ok (migrate now s)
  | .missing => .ok DEFAULT_STATE
  | .unparsable => .ok DEFAULT_STATE

/-! ## The exclusion lock (`src/store/lock.ts`) -/

/-- What the lock file on disk looks like to `acquireLock`: absent,
unparsable JSON, or parsed JSON whose `pid` property may be missing. -/
inductive LockContent
  | malformed
  | parsed (pid : Option Nat)
deriving DecidableEq, Repr

/-- The lock file before / after an `acquireLock` call. -/
inductive LockFileState
  | absent
  | present (c : LockContent)
deriving DecidableEq, Repr

/-- The body of the inner `try` of `acquireLock`: parse the existing lock
and throw `"Another task-sync process is running (pid=...)"` when the
recorded pid is truthy and alive. -/
def lockCheck (c : LockContent) (alive : Nat → Bool) : Except String Unit :=
  match c with
  | .malformed => .error "SyntaxError: invalid JSON"
  | .parsed pid? =>
    match pid? with
    | none => .ok ()
    | some pid =>
      if pid ≠ 0 && alive pid then
        .error ("Another task-sync process is running (pid=" ++ Nat.repr pid ++ ").")
      else .ok ()

/-- The result of `acquireLock`: the outcome (an `error` models the function
throwing) and the resulting lock file. -/
structure LockResult where
  outcome : Except String Unit
  file : LockFileState
deriving Repr

/-- `acquireLock` from `src/store/lock.ts`.  When the exclusive create
(`flag: 'wx'`) fails, the inner `try` reads and checks the existing lock —
but its `catch (err) { void err }` swallows *every* exception of that block,
including the deliberately thrown "Another task-sync process is running"
error, after which the lock is unconditionally overwritten (`flag: 'w'`).
So `acquireLock` always succeeds and always leaves its own pid in the file. -/
def acquireLock (file : LockFileState) (alive : Nat → Bool) (myPid : Nat) : LockResult :=
  match file with
  | .absent =>
    -- exclusive create succeeds
    ⟨.ok (), .present (.parsed (some myPid))⟩
  | .present c =>
    match lockCheck c alive with
    | .ok _ =>
      -- stale lock: overwrite
      ⟨.ok (), .present (.parsed (some myPid))⟩
    | .error _ =>
      -- the catch swallows the "another run" throw as well: still overwrite
      ⟨.ok (), .present (.parsed (some myPid))⟩

/-! ## The sync engine (`src/sync/engine.ts`) -/

/-- `SyncMode`. -/
inductive SyncMode
  | bidirectional
  | aToBOnly
  | mirror
deriving DecidableEq, Repr

/-- `SyncOptions` (the `conflictPolicy` option has the single value
`'last-write-wins'` and never influences control flow, so it is omitted). -/
structure SyncOptions where
  dryRun : Option Bool := none
  mode : Option SyncMode := none
  tombstoneTtlDays : Option Nat := none
deriving DecidableEq, Repr

/-- `SyncActionKind`. -/
inductive ActionKind
  | create
  | update
  | delete
  | recreate
  | noop
deriving DecidableEq, Repr

/-- `SyncAction` (with `source` / `target` flattened). -/
structure SyncAction where
  kind : ActionKind
  executed : Bool
  sourceProvider : String
  sourceId : String
  targetProvider : String
  targetId : Option String := none
  title : Option String := none
  detail : String := ""
deriving DecidableEq, Repr

/-- One entry of `SyncConflict.providers`. -/
structure ConflictEntry where
  provider : String
  id : String
  updatedAt : Time
  value : FieldVal
deriving DecidableEq, Repr

/-- `SyncConflict`. -/
structure SyncConflict where
  canonicalId : String
  field : Field
  providers : List ConflictEntry
  winnerProvider : String
  winnerId : String
  winnerUpdatedAt : Time
  overwritten : List (String × String)
deriving DecidableEq, Repr

/-- The `stage` tag of a report error. -/
inductive Stage
  | listChanges
  | listAll
  | write
deriving DecidableEq, Repr

/-- One entry of `SyncReport.errors`. -/
structure SyncError where
  provider : String
  stage : Stage
  error : String
deriving DecidableEq, Repr

/-- `SyncReport` (minus the wall-clock `durationMs`). -/
structure SyncReport where
  dryRun : Bool
  providers : List String
  lastSyncAt : Option Time
  newLastSyncAt : Time
  countCreate : Nat
  countUpdate : Nat
  countDelete : Nat
  countRecreate : Nat
  countNoop : Nat
  actions : List SyncAction
  conflicts : List SyncConflict
  errors : List SyncError
deriving DecidableEq, Repr

/-- A provider call the engine actually performed (the write log of the
embedding; `listTasks` reads are part of the `Provider` value itself). -/
inductive WriteOp
  | upsert (provider : String) (payload : Task)
  | remove (provider : String) (id : String)
deriving DecidableEq, Repr

/-- A `TaskProvider` for one cycle: the results its three operations would
return.  `listChanges` is the outcome of `listTasks(lastSyncAt)`,
`listAll` of `listTasks(undefined)`; an `error` payload models the thrown
exception's message. -/
structure Provider where
  name : String
  listChanges : Except String (List Task)
  listAll : Except String (List Task)
  upsertResult : Task → Except String Task
  deleteResult : String → Except String Unit

/-- A per-provider snapshot (`changes`, `all`; the id indexes are derived). -/
structure Snapshot where
  changes : List Task
  all : List Task
deriving DecidableEq, Repr

/-- `indexById(...).get id` — a JavaScript `Map` built from a task list maps
each id to the *last* task carrying it. -/
def indexGet (ts : List Task) (id : String) : Option Task :=
  ts.foldl (fun acc t => if t.id == id then some t else acc) none

/-- `indexById(...).has id`. -/
def indexHas (ts : List Task) (id : String) : Bool :=
  ts.any (fun t => t.id == id)

/-- `snapshots.get(name)` on the snapshot map. -/
def snapOf? (snaps : List (String × Snapshot)) (name : String) : Option Snapshot :=
  (snaps.find? (fun kv => kv.1 == name)).map (fun kv => kv.2)

/-- `snapshots.get(name)!` — only used where the provider is known to be in
the map; the default is never reached. -/
def snapOf (snaps : List (String × Snapshot)) (name : String) : Snapshot :=
  (snapOf? snaps name).getD ⟨[], []⟩

/-- JavaScript `Set.add` (insertion-ordered, deduplicating). -/
def setAdd (l : List String) (x : String) : List String :=
  if l.contains x then l else l ++ [x]

/-- `pickProvidersByMode` from `engine.ts`. -/
def pickProvidersByMode (mode : SyncMode) (providers : List Provider) :
    List Provider × List Provider :=
  match mode with
  | .bidirectional => (providers, providers)
  | _ =>
    match providers with
    | [] => (providers, providers)
    | [_] => (providers, providers)
    | a :: rest => ([a], rest)

/-- Step 2 of `syncMany`: collect `(changes, all)` snapshots for every
provider, accumulating `listChanges` / `listAll` errors and the set of
providers whose full listing failed. -/
def collectStep (acc : List (String × Snapshot) × List SyncError × List String)
    (p : Provider) : List (String × Snapshot) × List SyncError × List String :=
  let (snaps, errs, failed) := acc
  let (changes, errs1) : List Task × List SyncError :=
    match p.listChanges with
    | .ok l => (l, errs)
    | .error e => ([], errs ++ [⟨p.name, .listChanges, e⟩])
  let (all, errs2, failed2) : List Task × List SyncError × List String :=
    match p.listAll with
    | .ok l => (l, errs1, failed)
    | .error e => ([], errs1 ++ [⟨p.name, .listAll, e⟩], failed ++ [p.name])
  (snaps ++ [(p.name, ⟨changes, all⟩)], errs2, failed2)

/-- Snapshot collection over all providers. -/
def collectSnapshots (providers : List Provider) :
    List (String × Snapshot) × List SyncError × List String :=
  providers.foldl collectStep ([], [], [])

/-- The read-only per-cycle context threaded through the phases. -/
structure Ctx where
  snapshots : List (String × Snapshot)
  healthy : List Provider
  dryRun : Bool
  mode : SyncMode
  now : Time
  lastSyncAt0 : Option Time
  firstProviderName : String
  targetNames : List String

/-- The mutable engine environment: the state plus the report accumulators,
the fresh-id counter, the write log and the `tombstoneCanonicalIds` set. -/
structure Env where
  state : SyncState
  gen : Nat
  actions : List SyncAction
  conflicts : List SyncConflict
  errors : List SyncError
  writes : List WriteOp
  noops : Nat
  tombstoneCanonicalIds : List String

/-- `push` from `syncMany`: noops are only counted, everything else is
appended to the actions list. -/
def pushA (e : Env) (a : SyncAction) : Env :=
  if a.kind == .noop then { e with noops := e.noops + 1 }
  else { e with actions := e.actions ++ [a] }

/-- `JsonStore.ensureMapping` acting on the environment: return the existing
mapping for `(provider, id)` or insert a fresh one (with a generated
canonical id) and return it. -/
def envEnsureMapping (now : Time) (e : Env) (provider id : String) :
    MappingRecord × Env :=
  match findMapping e.state provider id with
  | some m => (m, e)
  | none =>
    let m : MappingRecord :=
      { canonicalId := "cid-" ++ Nat.repr e.gen
        byProvider := [(provider, id)]
        canonical := none
        updatedAt := now }
    (m, { e with
            state := { e.state with mappings := e.state.mappings ++ [m] }
            gen := e.gen + 1 })

/-! ### Step 3: cold start -/

/-- Append a task to its bucket (`buckets` is a `Map<string, Array<...>>`:
insertion-ordered keys, appended values). -/
def bucketAdd (bs : List (String × List (String × Task))) (k : String)
    (v : String × Task) : List (String × List (String × Task)) :=
  if bs.any (fun b => b.1 == k) then
    bs.map (fun b => if b.1 == k then (b.1, b.2 ++ [v]) else b)
  else
    bs ++ [(k, [v])]

/-- Build the cold-start buckets: all non-deleted tasks of all healthy
providers, grouped by `matchKey`. -/
def coldBuckets (ctx : Ctx) : List (String × List (String × Task)) :=
  ctx.healthy.foldl (fun bs p =>
    (snapOf ctx.snapshots p.name).all.foldl (fun bs t =>
      if t.status == .deleted then bs
      else bucketAdd bs (matchKey t) (p.name, t)) bs) []

/-- Process one cold-start group: groups with fewer than two *tasks* are
skipped; otherwise a mapping is ensured for the first task and every further
task's id is written into `byProvider` under its provider key (a later task
of the same provider overwrites the earlier id), and `canonical` is seeded
from the first task (`title`, `notes`, `dueAt`, `status`, `metadata`,
`updatedAt` only — the record literal at `rec.canonical = {...}`). -/
def coldGroupStep (now : Time) (e : Env) (group : List (String × Task)) : Env :=
  if group.length < 2 then e
  else
    match group with
    | [] => e
    | (p0, t0) :: rest =>
      let (m, e1) := envEnsureMapping now e p0 t0.id
      let bp := rest.foldl (fun bp g => bpSet bp g.1 g.2.id) m.byProvider
      let canon : CanonicalData :=
        { title := t0.title
          notes := t0.notes
          dueAt := t0.dueAt
          status := t0.status
          metadata := t0.metadata
          updatedAt := t0.updatedAt }
      { e1 with
          state := updateMapping e1.state m.canonicalId (fun mm =>
            { mm with byProvider := bp, canonical := some canon }) }

/-- Step 3 of `syncMany`: on a cold start (`!state.lastSyncAt` and no
mappings), match tasks across providers by `matchKey` to avoid duplicates. -/
def coldStart (ctx : Ctx) (e : Env) : Env :=
  if e.state.lastSyncAt.isNone && e.state.mappings.isEmpty then
    (coldBuckets ctx).foldl (fun e b => coldGroupStep ctx.now e b.2) e
  else e

/-! ### Step 4: delete-wins pass -/

/-- `isTerminal` from `syncMany`: only `status === 'deleted'` is terminal;
completed tasks are *not*. -/
def isTerminal (t : Task) : Bool :=
  t.status == .deleted

/-- Process one changed task of a healthy provider in the zombie-prevention
pass: a terminal task gets (or keeps) a mapping, its canonical id is added to
`tombstoneCanonicalIds`, and every non-empty provider id of the mapping is
tombstoned. -/
def terminalStep (now : Time) (e : Env) (pt : String × Task) : Env :=
  let (pname, t) := pt
  if !isTerminal t then e
  else
    let (m, e1) := envEnsureMapping now e pname t.id
    let e2 := { e1 with tombstoneCanonicalIds := setAdd e1.tombstoneCanonicalIds m.canonicalId }
    m.byProvider.foldl (fun e kv =>
      if kv.2 == "" then e
      else { e with state := addTombstone e.state kv.1 kv.2 now }) e2

/-- All `(provider, task)` pairs of the healthy providers' `changes` lists,
in iteration order. -/
def healthyChanges (ctx : Ctx) : List (String × Task) :=
  ctx.healthy.foldl (fun acc p =>
    acc ++ (snapOf ctx.snapshots p.name).changes.map (fun t => (p.name, t))) []

/-- The zombie-prevention (delete-wins) pass over all healthy providers'
changes. -/
def terminalPass (ctx : Ctx) (e : Env) : Env :=
  (healthyChanges ctx).foldl (terminalStep ctx.now) e

/-- Propagate the delete of one tombstoned canonical id: for every healthy
provider still holding a non-empty id that is tombstoned, push a `delete`
action and (outside dry-run) call `deleteTask`, recording write errors. -/
def propagateStep (ctx : Ctx) (e : Env) (canonicalId : String) : Env :=
  match e.state.mappings.find? (fun m => m.canonicalId == canonicalId) with
  | none => e
  | some m =>
    ctx.healthy.foldl (fun e p =>
      match bpGet m.byProvider p.name with
      | none => e
      | some pid =>
        if pid == "" then e
        else if isTombstoned e.state p.name pid then
          let e := pushA e
            { kind := .delete
              executed := !ctx.dryRun
              sourceProvider := "tombstone"
              sourceId := canonicalId
              targetProvider := p.name
              targetId := some pid
              title := m.canonical.map (fun c => c.title)
              detail := "delete-wins: canonical=" ++ canonicalId }
          if ctx.dryRun then e
          else
            let e := { e with writes := e.writes ++ [.remove p.name pid] }
            match p.deleteResult pid with
            | .ok _ => e
            | .error msg => { e with errors := e.errors ++ [⟨p.name, .write, msg⟩] }
        else e) e

/-- Delete fan-out over all canonical ids tombstoned by the terminal pass. -/
def propagateDeletes (ctx : Ctx) (e : Env) : Env :=
  e.tombstoneCanonicalIds.foldl (propagateStep ctx) e

/-! ### Step 5: orphan & external-deletion sweep -/

/-- Classify one mapping's provider ids against the current full indexes:
`(present, missing)`.  An id of a provider that is not part of this run is
skipped (its snapshot is genuinely absent from the map); an unhealthy
participating provider *does* have a snapshot — with an empty `all` list —
so its ids land in `missing` despite the source comment
"provider not healthy, skip". -/
def classifyMapping (ctx : Ctx) (m : MappingRecord) :
    List (String × String) × List (String × String) :=
  m.byProvider.foldl (fun pm kv =>
    if kv.2 == "" then pm
    else
      match snapOf? ctx.snapshots kv.1 with
      | none => pm
      | some snap =>
        if indexHas snap.all kv.2 then (pm.1 ++ [kv], pm.2)
        else (pm.1, pm.2 ++ [kv])) ([], [])

/-- The `detail` join of the external-delete action. -/
def joinMissing (missing : List (String × String)) : String :=
  String.intercalate "," (missing.map (fun kv => kv.1 ++ ":" ++ kv.2))

/-- Sweep one mapping: missing everywhere → tombstone all sides and drop the
mapping (orphan); missing somewhere while a baseline and a watermark exist →
external deletion: tombstone *all* sides and delete from the providers that
still hold the task. -/
def sweepStep (ctx : Ctx) (e : Env) (m : MappingRecord) : Env :=
  let (present, missing) := classifyMapping ctx m
  if present.isEmpty && !missing.isEmpty then
    let e := missing.foldl (fun e kv =>
      { e with state := addTombstone e.state kv.1 kv.2 ctx.now }) e
    { e with state := removeMapping e.state m.canonicalId }
  else if !missing.isEmpty && m.canonical.isSome && ctx.lastSyncAt0.isSome then
    let e := (present ++ missing).foldl (fun e kv =>
      { e with state := addTombstone e.state kv.1 kv.2 ctx.now }) e
    let e := { e with tombstoneCanonicalIds := setAdd e.tombstoneCanonicalIds m.canonicalId }
    present.foldl (fun e kv =>
      match ctx.healthy.find? (fun p => p.name == kv.1) with
      | none => e
      | some provider =>
        let e := pushA e
          { kind := .delete
            executed := !ctx.dryRun
            sourceProvider := (missing.headD ("", "")).1
            sourceId := (missing.headD ("", "")).2
            targetProvider := kv.1
            targetId := some kv.2
            title := m.canonical.map (fun c => c.title)
            detail := "external-delete: " ++ joinMissing missing ++ " missing" }
        if ctx.dryRun then e
        else
          let e := { e with writes := e.writes ++ [.remove kv.1 kv.2] }
          match provider.deleteResult kv.2 with
          | .ok _ => e
          | .error msg => { e with errors := e.errors ++ [⟨kv.1, .write, msg⟩] }) e
  else e

/-- The sweep iterates over a copy of `state.mappings` taken at entry
(`for (const m of [...state.mappings])`). -/
def orphanSweep (ctx : Ctx) (e : Env) : Env :=
  e.state.mappings.foldl (sweepStep ctx) e

/-! ### Step 6: field-level merge and fan-out -/

/-- All `(provider, task)` pairs of the healthy providers' `all` lists. -/
def healthyAll (ctx : Ctx) : List (String × Task) :=
  ctx.healthy.foldl (fun acc p =>
    acc ++ (snapOf ctx.snapshots p.name).all.map (fun t => (p.name, t))) []

/-- "Ensure every task we can see is mapped": `mappingFor` over every
observed task of every healthy provider. -/
def ensureAllMapped (ctx : Ctx) (e : Env) : Env :=
  (healthyAll ctx).foldl (fun e pt => (envEnsureMapping ctx.now e pt.1 pt.2.id).2) e

/-- Seed the working canonical from the baseline, falling back to the first
observed provider snapshot for `title`, `status` and `updatedAt` (the other
fields stay `undefined` without a baseline). -/
def seedCanonical (baseline : Option CanonicalData) (firstTask : Task) : CanonicalData :=
  { title := (baseline.map (fun b => b.title)).getD firstTask.title
    notes := baseline.bind (fun b => b.notes)
    dueAt := baseline.bind (fun b => b.dueAt)
    dueTime := baseline.bind (fun b => b.dueTime)
    status := (baseline.map (fun b => b.status)).getD firstTask.status
    reminder := baseline.bind (fun b => b.reminder)
    recurrence := baseline.bind (fun b => b.recurrence)
    categories := baseline.bind (fun b => b.categories)
    importance := baseline.bind (fun b => b.importance)
    steps := baseline.bind (fun b => b.steps)
    startAt := baseline.bind (fun b => b.startAt)
    metadata := baseline.bind (fun b => b.metadata)
    updatedAt := (baseline.map (fun b => b.updatedAt)).getD firstTask.updatedAt }

/-- `changedFields`: the fields whose provider value differs semantically
from the baseline value (`undefined` baseline values when no baseline). -/
def changedFields (baseline : Option CanonicalData) (t : Task) : List Field :=
  fields.filter (fun f =>
    !(fieldEqual f (match baseline with
                    | some b => b.get f
                    | none => f.undef) (t.get f)))

/-- A conflict contender. -/
structure Contender where
  prov : String
  t : Task
deriving DecidableEq, Repr

/-- Insert one contender into a descending-by-`updatedAt` list, after every
element it is not strictly newer than.  Together with `sortContenders` this
models `contenders.sort((a, b) => (newer(...) ? -1 : 1))` as executed by the
runtime's stable binary-insertion sort: strictly newer elements move to the
front, ties keep insertion (provider) order. -/
def insertByNewer (x : Contender) : List Contender → List Contender
  | [] => [x]
  | y :: ys =>
    if y.t.updatedAt < x.t.updatedAt then x :: y :: ys
    else y :: insertByNewer x ys

/-- Sort contenders by `updatedAt` descending, ties in insertion order. -/
def sortContenders (l : List Contender) : List Contender :=
  l.foldl (fun acc x => insertByNewer x acc) []

/-- Resolve a single field (the body of the `for (const f of fields)` loop):
zero contenders keep the baseline, one contender is adopted together with
its `updatedAt`, several contenders are resolved last-write-wins and emit a
`SyncConflict` record. -/
def resolveField (cid : String) (changed : List (String × Task × List Field))
    (acc : CanonicalData × List SyncConflict) (f : Field) :
    CanonicalData × List SyncConflict :=
  let (c, confs) := acc
  let contenders : List Contender :=
    changed.filterMap (fun e =>
      if e.2.2.contains f then some ⟨e.1, e.2.1⟩ else none)
  match contenders with
  | [] => (c, confs)
  | [x] => ({ c.set f (x.t.get f) with updatedAt := x.t.updatedAt }, confs)
  | x :: y :: rest =>
    match sortContenders (x :: y :: rest) with
    | [] => (c, confs)
    | winner :: others =>
      (c.set f (winner.t.get f),
       confs ++ [{ canonicalId := cid
                   field := f
                   providers := (winner :: others).map (fun cc =>
                     ⟨cc.prov, cc.t.id, cc.t.updatedAt, cc.t.get f⟩)
                   winnerProvider := winner.prov
                   winnerId := winner.t.id
                   winnerUpdatedAt := winner.t.updatedAt
                   overwritten := others.map (fun cc => (cc.prov, cc.t.id)) }])

/-- The field-level merge of one mapping (lines building `byProvTask`,
`changedBy` and the per-field loop): `none` when no provider currently holds
the task (`byProvTask.size === 0` → `continue`). -/
def mergeMapping (cid : String) (baseline : Option CanonicalData)
    (byProvTask : List (String × Task)) : Option (CanonicalData × List SyncConflict) :=
  match byProvTask with
  | [] => none
  | (_, t0) :: _ =>
    let c0 := seedCanonical baseline t0
    let changed : List (String × Task × List Field) :=
      byProvTask.filterMap (fun e =>
        let set := changedFields baseline e.2
        if set.isEmpty then none else some (e.1, e.2, set))
    some (fields.foldl (resolveField cid changed) (c0, []))

/-- The `byProvTask` map of one mapping: each non-empty provider id resolved
through the provider's current full index. -/
def byProvTaskOf (ctx : Ctx) (m : MappingRecord) : List (String × Task) :=
  m.byProvider.filterMap (fun kv =>
    if kv.2 == "" then none
    else
      match snapOf? ctx.snapshots kv.1 with
      | none => none
      | some snap => (indexGet snap.all kv.2).map (fun t => (kv.1, t)))

/-- The upsert payload sent to a provider: the canonical snapshot with the
given target id and metadata. -/
def taskOfCanonical (id : String) (c : CanonicalData) (metadata : Option String) : Task :=
  { id := id
    title := c.title
    notes := c.notes
    dueAt := c.dueAt
    dueTime := c.dueTime
    status := c.status
    reminder := c.reminder
    recurrence := c.recurrence
    categories := c.categories
    importance := c.importance
    steps := c.steps
    startAt := c.startAt
    metadata := metadata
    updatedAt := c.updatedAt }

/-- Fan the resolved canonical out to one target provider (the body of
`for (const target of healthyProviders)`). -/
def fanOutStep (ctx : Ctx) (cid : String) (canonical : CanonicalData)
    (e : Env) (target : Provider) : Env :=
  match e.state.mappings.find? (fun m => m.canonicalId == cid) with
  | none => e
  | some m =>
    let targetId := (bpGet m.byProvider target.name).getD ""
    let canWrite := ctx.targetNames.contains target.name &&
      (ctx.mode != .mirror || target.name != ctx.firstProviderName)
    if !canWrite then e
    else
      let snap := snapOf ctx.snapshots target.name
      if targetId == "" then
        -- no id for this provider yet → create
        let e := pushA e
          { kind := .create
            executed := !ctx.dryRun
            sourceProvider := "canonical"
            sourceId := cid
            targetProvider := target.name
            targetId := none
            title := some canonical.title
            detail := "create from canonical " ++ cid }
        if ctx.dryRun then e
        else
          let payload := taskOfCanonical "" canonical canonical.metadata
          let e := { e with writes := e.writes ++ [WriteOp.upsert target.name payload] }
          match target.upsertResult payload with
          | .ok created =>
            { e with state := upsertProviderId e.state cid target.name created.id ctx.now }
          | .error msg => { e with errors := e.errors ++ [SyncError.mk target.name .write msg] }
      else
        match indexGet snap.all targetId with
        | none =>
          -- mapped id missing on the provider → recreate unless tombstoned
          if isTombstoned e.state target.name targetId then e
          else
            let e := pushA e
              { kind := .recreate
                executed := !ctx.dryRun
                sourceProvider := "canonical"
                sourceId := cid
                targetProvider := target.name
                targetId := some targetId
                title := some canonical.title
                detail := target.name ++ ":" ++ targetId ++ " missing; recreate" }
            if ctx.dryRun then e
            else
              let payload := taskOfCanonical "" canonical canonical.metadata
              let e := { e with writes := e.writes ++ [WriteOp.upsert target.name payload] }
              match target.upsertResult payload with
              | .ok created =>
                { e with state := upsertProviderId e.state cid target.name created.id ctx.now }
              | .error msg => { e with errors := e.errors ++ [SyncError.mk target.name .write msg] }
        | some existing =>
          let differs := fields.any (fun f =>
            !(fieldEqual f (existing.get f) (canonical.get f)))
          if !differs then
            pushA e
              { kind := .noop
                executed := false
                sourceProvider := "canonical"
                sourceId := cid
                targetProvider := target.name
                targetId := some targetId
                title := some canonical.title
                detail := "already in sync" }
          else
            let e := pushA e
              { kind := .update
                executed := !ctx.dryRun
                sourceProvider := "canonical"
                sourceId := cid
                targetProvider := target.name
                targetId := some targetId
                title := some canonical.title
                detail := "field-level update" }
            if ctx.dryRun then e
            else
              let payload := taskOfCanonical targetId canonical
                (match canonical.metadata with
                 | some md => some md
                 | none => existing.metadata)
              let e := { e with writes := e.writes ++ [WriteOp.upsert target.name payload] }
              match target.upsertResult payload with
              | .ok _ => e
              | .error msg => { e with errors := e.errors ++ [SyncError.mk target.name .write msg] }

/-- Process the mapping at index `i` of the live mappings array: skip it when
any side is tombstoned (delete-wins), otherwise merge, store the new
canonical snapshot, and — unless the resolved title is blank — fan out to
every healthy provider. -/
def mainStep (ctx : Ctx) (e : Env) (i : Nat) : Env :=
  match e.state.mappings[i]? with
  | none => e
  | some m =>
    let tombstoned := m.byProvider.any (fun kv =>
      kv.2 != "" && isTombstoned e.state kv.1 kv.2)
    if tombstoned then e
    else
      match mergeMapping m.canonicalId m.canonical (byProvTaskOf ctx m) with
      | none => e
      | some (canonical, confs) =>
        let e := { e with
                     conflicts := e.conflicts ++ confs
                     state := upsertCanonicalSnapshot e.state m.canonicalId canonical ctx.now }
        if jsTrim canonical.title == "" then e
        else ctx.healthy.foldl (fanOutStep ctx m.canonicalId canonical) e

/-- Step 6 of `syncMany`: the main reconciliation loop over all mappings.
The loop body never adds or removes mappings, so iterating the indices of
the list as it stood at loop entry is the `for (const m of state.mappings)`
of the source. -/
def mainLoop (ctx : Ctx) (e : Env) : Env :=
  (List.range e.state.mappings.length).foldl (mainStep ctx) e

/-- The final cycle result: the report, the in-memory state, the write log
and whether `store.save` ran. -/
structure CycleResult where
  report : SyncReport
  state : SyncState
  writes : List WriteOp
  saved : Bool
  conflictLogAppended : Bool

/-- The phase pipeline of the cycle body, steps 3–6 in order. -/
def runPhases (ctx : Ctx) (e : Env) : Env :=
  mainLoop ctx (ensureAllMapped ctx (orphanSweep ctx (propagateDeletes ctx
    (terminalPass ctx (coldStart ctx e)))))

/-- The per-cycle context built by `syncMany` from its arguments. -/
def mkCtx (p0 : Provider) (providers : List Provider) (opts : SyncOptions)
    (state0 : SyncState) (now : Time) : Ctx :=
  let collected := collectSnapshots providers
  let failed := collected.2.2
  let healthy := providers.filter (fun p => !(failed.contains p.name))
  { snapshots := collected.1
    healthy := healthy
    dryRun := opts.dryRun.getD false
    mode := opts.mode.getD .bidirectional
    now := now
    lastSyncAt0 := state0.lastSyncAt
    firstProviderName := p0.name
    targetNames := ((pickProvidersByMode (opts.mode.getD .bidirectional) healthy).2).map
      (fun t => t.name) }

/-- The initial environment of a cycle: the pruned state, the snapshot
errors, and empty accumulators. -/
def mkEnv (providers : List Provider) (opts : SyncOptions)
    (state0 : SyncState) (now : Time) : Env :=
  { state := pruneExpiredTombstones state0 (opts.tombstoneTtlDays.getD 30) now
    gen := 0
    actions := []
    conflicts := []
    errors := (collectSnapshots providers).2.1
    writes := []
    noops := 0
    tombstoneCanonicalIds := [] }

/-- The cycle body (everything inside the lock), for a provider list with
head `p0`. -/
def syncCycle (p0 : Provider) (providers : List Provider) (opts : SyncOptions)
    (state0 : SyncState) (now : Time) : CycleResult :=
  let dryRun := opts.dryRun.getD false
  let ctx := mkCtx p0 providers opts state0 now
  let env6 := runPhases ctx (mkEnv providers opts state0 now)
  { report :=
      { dryRun := dryRun
        providers := ctx.healthy.map (fun p => p.name)
        lastSyncAt := state0.lastSyncAt
        newLastSyncAt := now
        countCreate := (env6.actions.filter (fun a => a.kind == .create)).length
        countUpdate := (env6.actions.filter (fun a => a.kind == .update)).length
        countDelete := (env6.actions.filter (fun a => a.kind == .delete)).length
        countRecreate := (env6.actions.filter (fun a => a.kind == .recreate)).length
        countNoop := env6.noops
        actions := env6.actions
        conflicts := env6.conflicts
        errors := env6.errors }
    state := { env6.state with lastSyncAt := some now }
    writes := env6.writes
    saved := !dryRun
    conflictLogAppended := !env6.conflicts.isEmpty && !dryRun }

/-- `SyncEngine.syncMany`.  The lock acquire/release pair around the body is
modelled separately by `acquireLock`; `new Date()` / `Date.now()` are the
single `now`; the store's `save` only happens outside dry-run and is
reported by the `saved` flag. -/
def syncMany (providers : List Provider) (opts : SyncOptions)
    (state0 : SyncState) (now : Time) : Except String CycleResult :=
  match providers with
  | [] | [_] => .error "syncMany requires at least 2 providers"
  | p0 :: _ => .ok (syncCycle p0 providers opts state0 now)

/-! ## Concrete scenarios used by the theorems -/

/-- A healthy provider returning the given lists and echoing upserts. -/
def okProv (nm : String) (chg all : List Task) : Provider :=
  { name := nm
    listChanges := .ok chg
    listAll := .ok all
    upsertResult := fun t => .ok t
    deleteResult := fun _ => .ok () }

/-- A provider whose `listTasks` throws on both calls. -/
def downProv (nm : String) : Provider :=
  { name := nm
    listChanges := .error "X is down"
    listAll := .error "X is down"
    upsertResult := fun t => .ok t
    deleteResult := fun _ => .ok () }

/-- C1 scenario: provider A's task `a1`, present and unchanged. -/
def c1TaskA : Task :=
  { id := "a1", title := "t", status := .active, updatedAt := 50 }

/-- C1 scenario: a warm state with one mapping spanning providers A and X,
with a stored baseline. -/
def c1State : SyncState :=
  { lastSyncAt := some 100
    mappings := [{ canonicalId := "m1"
                   byProvider := [("A", "a1"), ("X", "x1")]
                   canonical := some { title := "t", status := .active, updatedAt := 50 }
                   updatedAt := 0 }]
    tombstones := [] }

/-- A task with only a title, used by cold-start scenarios. -/
def mkTask (id title : String) (t : Time) : Task :=
  { id := id, title := title, status := .active, updatedAt := t }

/-- C8 counterexample context: healthy providers A and B, where A's full
snapshot holds two distinct tasks with an identical normalized
(title, notes) key and B holds nothing. -/
def c8Ctx : Ctx :=
  { snapshots := [("A", ⟨[], [mkTask "x1" "Buy milk" 10, mkTask "x2" "Buy milk" 20]⟩),
                  ("B", ⟨[], []⟩)]
    healthy := [okProv "A" [] [mkTask "x1" "Buy milk" 10, mkTask "x2" "Buy milk" 20],
                okProv "B" [] []]
    dryRun := true
    mode := .bidirectional
    now := 100
    lastSyncAt0 := none
    firstProviderName := "A"
    targetNames := ["A", "B"] }

/-- An empty environment over an empty state. -/
def emptyEnv : Env :=
  { state := {}
    gen := 0
    actions := []
    conflicts := []
    errors := []
    writes := []
    noops := 0
    tombstoneCanonicalIds := [] }

/-- A provider's copy of a baseline snapshot, unchanged (same metadata, same
`updatedAt`). -/
def noEdit (id : String) (b : CanonicalData) : Task :=
  taskOfCanonical id b b.metadata

/-- A provider's copy of a baseline snapshot with the title edited at time
`t`. -/
def titleEdit (id : String) (b : CanonicalData) (v : String) (t : Time) : Task :=
  { noEdit id b with title := v, updatedAt := t }

/-- A provider's copy of a baseline snapshot with the notes edited at time
`t`. -/
def notesEdit (id : String) (b : CanonicalData) (v : Option String) (t : Time) : Task :=
  { noEdit id b with notes := v, updatedAt := t }

/-- C3 scenario: provider A's view of the mapped task, freshly completed at
`t1`. -/
def c3TaskA (T : String) (t1 : Time) : Task :=
  { id := "a1", title := T, status := .completed, updatedAt := t1 }

/-- C3 scenario: provider B's view, still the baseline. -/
def c3TaskB (T : String) (t0 : Time) : Task :=
  { id := "b1", title := T, status := .active, updatedAt := t0 }

/-- C3 scenario: the stored baseline (status active). -/
def c3Baseline (T : String) (t0 : Time) : CanonicalData :=
  { title := T, status := .active, updatedAt := t0 }

/-- C3 scenario: a warm state mapping A's `a1` to B's `b1` with the active
baseline. -/
def c3State (T : String) (t0 : Time) : SyncState :=
  { lastSyncAt := some t0
    mappings := [{ canonicalId := "m1"
                   byProvider := [("A", "a1"), ("B", "b1")]
                   canonical := some (c3Baseline T t0)
                   updatedAt := 0 }]
    tombstones := [] }

/-- C3 scenario: healthy providers A (reporting the completed task as a
change) and B (unchanged). -/
def c3Providers (T : String) (t0 t1 : Time) : List Provider :=
  [okProv "A" [c3TaskA T t1] [c3TaskA T t1], okProv "B" [] [c3TaskB T t0]]

/-- C3 scenario: the canonical snapshot after the cycle — the baseline with
`status` and `updatedAt` taken from A's completed task. -/
def c3Merged (T : String) (t1 : Time) : CanonicalData :=
  { title := T, status := .completed, updatedAt := t1 }

/-- C8 amended scenario: provider A with two same-key tasks, provider B with
one task of the same key and one singleton of another key. -/
def c8AllA (T : String) : List Task := [mkTask "a1" T 1, mkTask "a2" T 2]

/-- C8 amended scenario: B's full list. -/
def c8AllB (T U : String) : List Task := [mkTask "b1" T 3, mkTask "w1" U 4]

/-- C8 amended scenario context over symbolic titles `T` and `U`. -/
def c8Ctx2 (T U : String) : Ctx :=
  { snapshots := [("A", ⟨[], c8AllA T⟩), ("B", ⟨[], c8AllB T U⟩)]
    healthy := [okProv "A" [] (c8AllA T), okProv "B" [] (c8AllB T U)]
    dryRun := true
    mode := .bidirectional
    now := 100
    lastSyncAt0 := none
    firstProviderName := "A"
    targetNames := ["A", "B"] }

/-- The cold-start grouping key of a bare title (the `matchKey` of any task
with that title and no notes). -/
def c8Key (s : String) : String :=
  matchKey (mkTask "x" s 0)

/-- C7 witness scenario: a state holding one live tombstone. -/
def c7State : SyncState := { tombstones := [⟨"A", "x1", 100⟩] }

/-- C7 witness scenario: the providers of the witness cycle — A holds one
unrelated task, B holds nothing, so the cycle emits a `create` towards B. -/
def c7Providers : List Provider :=
  [okProv "A" [c1TaskA] [c1TaskA], okProv "B" [] []]

/-- The per-action obligation of tombstone suppression for a pair
`(P, id)`: a `create` action names no target id at all, and a `recreate`
action never targets `(P, id)`. -/
def actionOK (P id : String) (a : SyncAction) : Prop :=
  (a.kind = .create → a.targetId = none) ∧
  (a.kind = .recreate → ¬(a.targetProvider = P ∧ a.targetId = some id))

/-- The invariant carried through the cycle for tombstone suppression:
`(P, id)` stays tombstoned in the evolving state, and every action recorded
so far satisfies `actionOK`. -/
def invC7 (P id : String) (e : Env) : Prop :=
  isTombstoned e.state P id = true ∧ ∀ a ∈ e.actions, actionOK P id a

/-- The invariant carried through a dry-run cycle: no provider write has
been performed and every recorded action is marked not executed. -/
def invC9 (e : Env) : Prop :=
  e.writes = [] ∧ ∀ a ∈ e.actions, a.executed = false

/-! ## Claim theorems -/

/-- A fold preserves any invariant its step preserves. -/
theorem foldlPreserve {α σ : Type _} (P : σ → Prop) (f : σ → α → σ)
    (hf : ∀ s a, P s → P (f s a)) :
    ∀ (l : List α) (s : σ), P s → P (l.foldl f s) := by
  intro l
  induction l with
  | nil => intro s h; exact h
  | cons a l ih => intro s h; exact ih (f s a) (hf s a h)

/-- `addTombstone` never removes a tombstone. -/
theorem isTombstoned_addTombstone_of (s : SyncState) (p i : String) (t : Time)
    (P id : String) (h : isTombstoned s P id = true) :
    isTombstoned (addTombstone s p i t) P id = true := by
  by_cases hc : isTombstoned s p i = true
  · simpa [addTombstone, hc] using h
  · have hc2 : isTombstoned s p i = false := by simpa using hc
    simp only [addTombstone, hc2, Bool.false_eq_true, if_false]
    simp only [isTombstoned, List.any_append] at h ⊢
    simp [h]

/-- `updateMapping` leaves the tombstones untouched. -/
theorem tombstones_updateMapping (s : SyncState) (cid : String)
    (f : MappingRecord → MappingRecord) :
    (updateMapping s cid f).tombstones = s.tombstones := by
  rfl

/-- `removeMapping` leaves the tombstones untouched. -/
theorem tombstones_removeMapping (s : SyncState) (cid : String) :
    (removeMapping s cid).tombstones = s.tombstones := by
  rfl

/-- `isTombstoned` only reads the tombstones. -/
theorem isTombstoned_congr (s s' : SyncState) (h : s'.tombstones = s.tombstones)
    (P id : String) : isTombstoned s' P id = isTombstoned s P id := by
  simp [isTombstoned, h]

/-- `envEnsureMapping` changes neither the tombstones nor the recorded
actions nor the writes. -/
theorem envEnsureMapping_frame (now : Time) (e : Env) (p i : String) :
    (envEnsureMapping now e p i).2.state.tombstones = e.state.tombstones ∧
    (envEnsureMapping now e p i).2.actions = e.actions ∧
    (envEnsureMapping now e p i).2.writes = e.writes := by
  unfold envEnsureMapping
  split <;> simp

/-- Transfer `invC7` along equal tombstones and actions. -/
theorem invC7_of_frame (P id : String) (e e' : Env)
    (ht : e'.state.tombstones = e.state.tombstones)
    (ha : e'.actions = e.actions) (h : invC7 P id e) : invC7 P id e' := by
  refine ⟨?_, ?_⟩
  · rw [isTombstoned_congr e.state e'.state ht]
    exact h.1
  · rw [ha]
    exact h.2

/-- `pushA` preserves `invC7` whenever the pushed action satisfies
`actionOK`. -/
theorem invC7_pushA (P id : String) (e : Env) (a : SyncAction)
    (h : invC7 P id e) (ha : actionOK P id a) : invC7 P id (pushA e a) := by
  unfold pushA
  split
  · exact h
  · refine ⟨h.1, ?_⟩
    intro x hx
    rcases List.mem_append.mp hx with hx | hx
    · exact h.2 x hx
    · rcases List.mem_singleton.mp hx with rfl
      exact ha

/-- `matchKey` only looks at `title` and `notes`, so every `mkTask` with the
same title has the same key. -/
theorem matchKey_mkTask (id s : String) (t : Time) :
    matchKey (mkTask id s t) = c8Key s := by
  rfl

/-- A provider copy with no edits has no changed fields. -/
theorem changedFields_noEdit (b : CanonicalData) (id : String) :
    changedFields (some b) (noEdit id b) = [] := by
  simp [changedFields, fields, noEdit, taskOfCanonical, fieldEqual,
        CanonicalData.get, Task.get]

/-- A title edit (to a semantically different title) changes exactly the
title field. -/
theorem changedFields_titleEdit (b : CanonicalData) (id v : String) (t : Time)
    (h : (b.title == v) = false) :
    changedFields (some b) (titleEdit id b v t) = [.title] := by
  simp [changedFields, fields, titleEdit, noEdit, taskOfCanonical, fieldEqual,
        CanonicalData.get, Task.get, h]

/-- A notes edit (to semantically different notes) changes exactly the notes
field. -/
theorem changedFields_notesEdit (b : CanonicalData) (id : String)
    (v : Option String) (t : Time)
    (h : (normField b.notes == normField v) = false) :
    changedFields (some b) (notesEdit id b v t) = [.notes] := by
  simp [changedFields, fields, notesEdit, noEdit, taskOfCanonical, fieldEqual,
        CanonicalData.get, Task.get, h]

/-- Seeding from a present baseline reproduces the baseline. -/
theorem seedCanonical_some (b : CanonicalData) (t : Task) :
    seedCanonical (some b) t = b := by
  rfl

/-- C2.  The claim says `acquireLock` fails with "another run in progress"
and leaves the lock file alone when the recorded pid belongs to a live
process.  The code does construct and throw that error (first conjunct: the
inner check rejects a live pid 42), but the throw happens inside the same
`try` whose `catch (err) {{ void err }}` was meant for read/parse failures,
so the error is swallowed and the lock file of the live process is
overwritten with the caller's pid (second conjunct): `acquireLock` never
fails. -/
theorem C2_live_lock_is_overwritten :
    lockCheck (.parsed (some 42)) (fun p => p == 42) =
      .error "Another task-sync process is running (pid=42)." ∧
    acquireLock (.present (.parsed (some 42))) (fun p => p == 42) 99 =
      ⟨.ok (), .present (.parsed (some 99))⟩ := by
  constructor
  · rfl
  · rfl

/-- C4 (counterexample).  The claim says a state file with malformed JSON is
a fatal load error.  In the code the single `catch` around
`readFile` + `JSON.parse` + `migrate` also swallows the parse failure, so
`load` succeeds and returns the fresh default state instead of failing. -/
theorem C4_counterexample_malformed_loads_default :
    load 0 .unparsable = .ok DEFAULT_STATE := by
  rfl

/-- C4 (amended).  `JsonStore.load` returns the empty default state
(version 1, no `lastSyncAt`, empty `mappings` and `tombstones`) both when
the state file is missing *and* when it exists but holds malformed JSON;
`load` never fails, so a corrupt state file is silently replaced by the
default on the next save rather than being treated as fatal. -/
theorem C4_load_missing_or_malformed_defaults (now : Time) :
    load now .missing = .ok DEFAULT_STATE ∧
    load now .unparsable = .ok DEFAULT_STATE ∧
    DEFAULT_STATE =
      { version := 1, lastSyncAt := none, mappings := [], tombstones := [] } := by
  exact ⟨rfl, rfl, rfl⟩

/-- C10.  `addTombstone` is idempotent per `(provider, id)`: on a state that
already holds a tombstone for the pair it returns the state unchanged (so
the original `deletedAt` is kept and the TTL window is not extended), and it
preserves the invariant that no two tombstone records share a
`(provider, id)` key. -/
theorem C10_addTombstone_idempotent (s : SyncState) (p id : String) (t : Time) :
    (isTombstoned s p id = true → addTombstone s p id t = s) ∧
    ((s.tombstones.Pairwise fun a b => ¬(a.provider = b.provider ∧ a.id = b.id)) →
      ((addTombstone s p id t).tombstones.Pairwise
        fun a b => ¬(a.provider = b.provider ∧ a.id = b.id))) := by
  constructor
  · intro h
    simp [addTombstone, h]
  · intro h
    by_cases hts : isTombstoned s p id = true
    · have heq : addTombstone s p id t = s := by simp [addTombstone, hts]
      rw [heq]
      exact h
    · have hts2 : isTombstoned s p id = false := by
        simpa using hts
      have hall : ∀ x ∈ s.tombstones, ¬(x.provider = p ∧ x.id = id) := by
        intro x hx hcon
        have : isTombstoned s p id = true := by
          simp [isTombstoned, List.any_eq_true]
          exact ⟨x, hx, by simp [hcon.1, hcon.2]⟩
        simp [this] at hts2
      simp only [addTombstone, hts2, Bool.false_eq_true, if_false]
      rw [List.pairwise_append]
      refine ⟨h, by simp, ?_⟩
      intro a ha b hb
      simp only [List.mem_singleton] at hb
      subst hb
      exact hall a ha

/-- C10 witness: a concrete already-tombstoned pair is left untouched and
key-uniqueness is preserved. -/
theorem C10_witness :
    (addTombstone { tombstones := [⟨"A", "x", 5⟩] } "A" "x" 9 =
      ({ tombstones := [⟨"A", "x", 5⟩] } : SyncState)) ∧
    ((addTombstone { tombstones := [⟨"A", "x", 5⟩] } "A" "x" 9).tombstones.Pairwise
      fun a b => ¬(a.provider = b.provider ∧ a.id = b.id)) := by
  refine ⟨(C10_addTombstone_idempotent { tombstones := [⟨"A", "x", 5⟩] } "A" "x" 9).1 (by decide),
          (C10_addTombstone_idempotent { tombstones := [⟨"A", "x", 5⟩] } "A" "x" 9).2 (by decide)⟩

/-- C1.  The claim says a cycle in which exactly one provider's `listAll`
throws leaves that provider's mappings untouched: no tombstone for its
mapped ids and no delete propagated because of the failure.  The cycle does
complete for the healthy provider A and records X's `listAll` error — but
the orphan/external-deletion sweep looks ids up in the unhealthy provider's
snapshot, which exists with an *empty* full index (the `if (!snap) continue`
guard commented "provider not healthy, skip" never fires for a participating
provider), so X's mapped id counts as missing: the code tombstones both
sides of the mapping and propagates an executed delete to healthy provider
A, destroying the task that only X failed to list. -/
theorem C1_unhealthy_provider_mapping_destroyed :
    ((syncMany [okProv "A" [c1TaskA] [c1TaskA], downProv "X"] {} c1State 200).toOption.map
      (fun c =>
        (c.report.providers,
         c.report.errors,
         c.state.tombstones,
         c.report.actions.map (fun a => (a.kind, a.targetProvider, a.targetId, a.executed)),
         c.writes))) =
    some (["A"],
          [⟨"X", .listChanges, "X is down"⟩, ⟨"X", .listAll, "X is down"⟩],
          [⟨"A", "a1", 200⟩, ⟨"X", "x1", 200⟩],
          [(.delete, "A", some "a1", true)],
          [.remove "A" "a1"]) := by
  rfl

/-- C8 (counterexample).  The claim says only groups containing tasks from
at least two *distinct providers* produce a mapping, and groups whose tasks
all come from one provider create none.  The code checks `group.length < 2`
— the number of tasks, not of distinct providers — so two same-key tasks of
the single provider A produce a mapping, whose `byProvider` entry for A is
overwritten by the later task (`x2`) while `canonical` is seeded from the
first (`x1`). -/
theorem C8_counterexample_single_provider_group_mapped :
    (coldStart c8Ctx emptyEnv).state.mappings =
      [{ canonicalId := "cid-0"
         byProvider := [("A", "x2")]
         canonical := some { title := "Buy milk", notes := none, dueAt := none,
                             status := .active, metadata := none, updatedAt := 10 }
         updatedAt := 100 }] := by
  rfl

/-- C5.  True conflict (two providers changed the same field since the
baseline): the contenders are ordered by `updatedAt` descending with ties
kept in provider order, the canonical adopts the value of the contender with
the latest `updatedAt`, and exactly one `SyncConflict` record is emitted for
the field, listing all contenders (in sorted order), the winner, and the
overwritten losers.  First conjunct: strictly newer B wins; second conjunct:
on a tie the first provider (A) wins. -/
theorem C5_last_write_wins_conflict (cid : String) (b : CanonicalData)
    (vA vB : String) (t1 t2 : Time)
    (hA : (b.title == vA) = false) (hB : (b.title == vB) = false) :
    (t1 < t2 →
      mergeMapping cid (some b)
          [("A", titleEdit "a1" b vA t1), ("B", titleEdit "b1" b vB t2)] =
        some ({ b with title := vB },
              [{ canonicalId := cid
                 field := .title
                 providers := [⟨"B", "b1", t2, .str (some vB)⟩,
                               ⟨"A", "a1", t1, .str (some vA)⟩]
                 winnerProvider := "B"
                 winnerId := "b1"
                 winnerUpdatedAt := t2
                 overwritten := [("A", "a1")] }])) ∧
    (t1 = t2 →
      mergeMapping cid (some b)
          [("A", titleEdit "a1" b vA t1), ("B", titleEdit "b1" b vB t2)] =
        some ({ b with title := vA },
              [{ canonicalId := cid
                 field := .title
                 providers := [⟨"A", "a1", t1, .str (some vA)⟩,
                               ⟨"B", "b1", t2, .str (some vB)⟩]
                 winnerProvider := "A"
                 winnerId := "a1"
                 winnerUpdatedAt := t1
                 overwritten := [("B", "b1")] }])) := by
  constructor
  · intro hlt
    simp only [mergeMapping, List.filterMap_cons, List.filterMap_nil,
      changedFields_titleEdit b _ _ _ hA, changedFields_titleEdit b _ _ _ hB,
      List.isEmpty_cons, seedCanonical_some, fields,
      List.foldl_cons, List.foldl_nil]
    simp only [resolveField, List.contains_cons, List.contains_nil,
      List.filterMap_cons, List.filterMap_nil]
    simp [sortContenders, insertByNewer, titleEdit, noEdit, taskOfCanonical,
      Task.get, CanonicalData.set, hlt]
  · intro heq
    subst heq
    simp only [mergeMapping, List.filterMap_cons, List.filterMap_nil,
      changedFields_titleEdit b _ _ _ hA, changedFields_titleEdit b _ _ _ hB,
      List.isEmpty_cons, seedCanonical_some, fields,
      List.foldl_cons, List.foldl_nil]
    simp only [resolveField, List.contains_cons, List.contains_nil,
      List.filterMap_cons, List.filterMap_nil]
    simp [sortContenders, insertByNewer, titleEdit, noEdit, taskOfCanonical,
      Task.get, CanonicalData.set]

/-- C5 witness: at the baseline title `"T"`, contenders `"Ta"`@1 (A) and
`"Tb"`@2 (B), the canonical adopts `"Tb"` and one conflict record names B
as winner and A as overwritten. -/
theorem C5_witness :
    mergeMapping "m" (some { title := "T", status := .active, updatedAt := 0 })
        [("A", titleEdit "a1" { title := "T", status := .active, updatedAt := 0 } "Ta" 1),
         ("B", titleEdit "b1" { title := "T", status := .active, updatedAt := 0 } "Tb" 2)] =
      some ({ title := "Tb", status := .active, updatedAt := 0 },
            [{ canonicalId := "m"
               field := .title
               providers := [⟨"B", "b1", 2, .str (some "Tb")⟩,
                             ⟨"A", "a1", 1, .str (some "Ta")⟩]
               winnerProvider := "B"
               winnerId := "b1"
               winnerUpdatedAt := 2
               overwritten := [("A", "a1")] }]) := by
  exact (C5_last_write_wins_conflict "m"
    { title := "T", status := .active, updatedAt := 0 } "Ta" "Tb" 1 2
    (by decide) (by decide)).1 (by decide)

/-- C6.  Zero contenders keep the baseline value; a single contender's value
is adopted together with its `updatedAt`.  First conjunct: only A edited the
title — the canonical is the baseline with A's title and `updatedAt`.
Second conjunct: A edited the title and B edited the notes (disjoint
fields) — both edits land in the canonical, nothing is lost, and no
conflict is emitted. -/
theorem C6_field_preservation (cid : String) (b : CanonicalData)
    (vA : String) (nB : Option String) (t1 t2 : Time)
    (hA : (b.title == vA) = false)
    (hN : (normField b.notes == normField nB) = false) :
    (mergeMapping cid (some b)
        [("A", titleEdit "a1" b vA t1), ("B", noEdit "b1" b)] =
      some ({ b with title := vA, updatedAt := t1 }, [])) ∧
    (mergeMapping cid (some b)
        [("A", titleEdit "a1" b vA t1), ("B", notesEdit "b1" b nB t2)] =
      some ({ b with title := vA, notes := nB, updatedAt := t2 }, [])) := by
  constructor
  · simp only [mergeMapping, List.filterMap_cons, List.filterMap_nil,
      changedFields_titleEdit b _ _ _ hA, changedFields_noEdit,
      List.isEmpty_cons, List.isEmpty_nil, seedCanonical_some, fields,
      List.foldl_cons, List.foldl_nil, if_true]
    simp only [resolveField, List.contains_cons, List.contains_nil,
      List.filterMap_cons, List.filterMap_nil]
    simp [titleEdit, noEdit, taskOfCanonical, Task.get, CanonicalData.set]
  · simp only [mergeMapping, List.filterMap_cons, List.filterMap_nil,
      changedFields_titleEdit b _ _ _ hA, changedFields_notesEdit b _ _ _ hN,
      List.isEmpty_cons, seedCanonical_some, fields,
      List.foldl_cons, List.foldl_nil]
    simp only [resolveField, List.contains_cons, List.contains_nil,
      List.filterMap_cons, List.filterMap_nil]
    simp [titleEdit, notesEdit, noEdit, taskOfCanonical, Task.get, CanonicalData.set]

/-- C6 witness: baseline `{title "T", notes "n0"}`; A retitles to `"T2"`@2,
B rewrites notes to `"n1"`@1; the canonical carries both edits and no
conflict is recorded. -/
theorem C6_witness :
    mergeMapping "m" (some { title := "T", notes := some "n0", status := .active, updatedAt := 0 })
        [("A", titleEdit "a1" { title := "T", notes := some "n0", status := .active, updatedAt := 0 } "T2" 2),
         ("B", notesEdit "b1" { title := "T", notes := some "n0", status := .active, updatedAt := 0 } (some "n1") 1)] =
      some ({ title := "T", notes := some "n0", status := .active, updatedAt := 0 : CanonicalData }
              |>.set .title (.str (some "T2")) |> (fun c => { c with notes := some "n1", updatedAt := 1 }),
            []) := by
  exact (C6_field_preservation "m"
    { title := "T", notes := some "n0", status := .active, updatedAt := 0 }
    "T2" (some "n1") 2 1 (by decide) (by decide)).2

/-- C3.  A completed task is not treated as terminal: in a cycle where
provider A reports the mapped task `a1` as `status=completed`, no tombstone
is written, no `delete` action is emitted, and the completed status
propagates to the other healthy target B through the ordinary field-level
`update` (the single executed action), whose upsert payload carries
`status=completed`; the stored canonical ends as the baseline completed at
A's `updatedAt`, so the task stays present everywhere as "completed". -/
theorem C3_completed_is_not_terminal (T : String) (t0 t1 n : Time)
    (hT : (jsTrim T == "") = false) :
    ((syncMany (c3Providers T t0 t1) {} (c3State T t0) n).toOption.map (fun c =>
      (c.report.actions,
       c.writes,
       c.state.tombstones,
       c.state.mappings.map (fun m => m.canonical),
       (c.report.actions.filter (fun a => a.kind == .delete)).length))) =
    some ([{ kind := .update, executed := true, sourceProvider := "canonical",
             sourceId := "m1", targetProvider := "B", targetId := some "b1",
             title := some T, detail := "field-level update" }],
          [.upsert "B" { id := "b1", title := T, status := .completed, updatedAt := t1 }],
          [],
          [some (c3Merged T t1)],
          0) := by
  simp [syncMany, syncCycle, mkCtx, mkEnv, runPhases, collectSnapshots, collectStep,
    c3Providers, c3State, c3TaskA, c3TaskB, c3Baseline, c3Merged, okProv,
    pruneExpiredTombstones, coldStart, terminalPass, healthyChanges, terminalStep,
    isTerminal, propagateDeletes, orphanSweep, sweepStep, classifyMapping,
    indexHas, snapOf, snapOf?, ensureAllMapped, healthyAll, envEnsureMapping,
    findMapping, bpGet, mainLoop, mainStep, isTombstoned, byProvTaskOf, indexGet,
    mergeMapping, changedFields, fields, fieldEqual, CanonicalData.get, Task.get,
    seedCanonical, resolveField, sortContenders, insertByNewer, CanonicalData.set,
    upsertCanonicalSnapshot, updateMapping, pushA, fanOutStep, taskOfCanonical,
    pickProvidersByMode, hT, normField, dateOnly,
    List.range_succ, List.range_zero, List.foldl_cons, List.foldl_nil,
    List.getElem?_cons_zero, List.getElem?_nil, Except.toOption]

/-- C3 witness: the concrete completion cycle (title `"Buy milk"`, baseline
at 0, completed at 1, cycle at 2) emits exactly the executed update to B
carrying `completed`, no delete, no tombstone. -/
theorem C3_witness :
    ((syncMany (c3Providers "Buy milk" 0 1) {} (c3State "Buy milk" 0) 2).toOption.map (fun c =>
      (c.report.actions,
       c.writes,
       c.state.tombstones,
       c.state.mappings.map (fun m => m.canonical),
       (c.report.actions.filter (fun a => a.kind == .delete)).length))) =
    some ([{ kind := .update, executed := true, sourceProvider := "canonical",
             sourceId := "m1", targetProvider := "B", targetId := some "b1",
             title := some "Buy milk", detail := "field-level update" }],
          [.upsert "B" { id := "b1", title := "Buy milk", status := .completed, updatedAt := 1 }],
          [],
          [some (c3Merged "Buy milk" 1)],
          0) := by
  exact C3_completed_is_not_terminal "Buy milk" 0 1 2 (by decide)

set_option maxHeartbeats 2000000 in
/-- C8 (amended).  Cold start groups the healthy providers' non-deleted
tasks by normalized (title, notes) key, and exactly the groups with at least
two *tasks* produce a single mapping: with A holding two same-key tasks
(`a1`, `a2`), B holding a third (`b1`) plus an unrelated singleton (`w1`),
the pass creates exactly one mapping — `byProvider` links one id per
provider, A's entry being the *later* task `a2` (overwriting `a1`), the
canonical is seeded from the group's first task `a1`, and the singleton
group of key `U` creates nothing. -/
theorem C8_cold_start_grouping (T U : String)
    (hK : (c8Key T == c8Key U) = false) :
    (coldStart (c8Ctx2 T U) emptyEnv).state.mappings =
      [{ canonicalId := "cid-0"
         byProvider := [("A", "a2"), ("B", "b1")]
         canonical := some { title := T, notes := none, dueAt := none,
                             status := .active, metadata := none, updatedAt := 1 }
         updatedAt := 100 }] := by
  have h1 : coldStart (c8Ctx2 T U) emptyEnv =
      (coldBuckets (c8Ctx2 T U)).foldl (fun e b => coldGroupStep 100 e b.2) emptyEnv := by
    rfl
  have h2 : coldBuckets (c8Ctx2 T U) =
      bucketAdd (bucketAdd (bucketAdd (bucketAdd [] (c8Key T) ("A", mkTask "a1" T 1))
        (c8Key T) ("A", mkTask "a2" T 2)) (c8Key T) ("B", mkTask "b1" T 3))
        (c8Key U) ("B", mkTask "w1" U 4) := by
    rfl
  have h3 : coldBuckets (c8Ctx2 T U) =
      [(c8Key T, [("A", mkTask "a1" T 1), ("A", mkTask "a2" T 2), ("B", mkTask "b1" T 3)]),
       (c8Key U, [("B", mkTask "w1" U 4)])] := by
    rw [h2]
    simp [bucketAdd, hK]
  rw [h1, h3]
  simp [coldGroupStep, envEnsureMapping, findMapping, bpGet, bpSet,
    updateMapping, emptyEnv, mkTask]
  rfl

/-- C8 witness: with titles `"milk"` and `"bread"` the cold-start pass
produces exactly the one cross-provider mapping. -/
theorem C8_witness :
    (coldStart (c8Ctx2 "milk" "bread") emptyEnv).state.mappings =
      [{ canonicalId := "cid-0"
         byProvider := [("A", "a2"), ("B", "b1")]
         canonical := some { title := "milk", notes := none, dueAt := none,
                             status := .active, metadata := none, updatedAt := 1 }
         updatedAt := 100 }] := by
  exact C8_cold_start_grouping "milk" "bread" (by decide)

/-- The cold-start group step leaves tombstones and actions unchanged. -/
theorem invC7_coldGroupStep (P id : String) (now : Time) (e : Env)
    (g : List (String × Task)) (h : invC7 P id e) :
    invC7 P id (coldGroupStep now e g) := by
  unfold coldGroupStep
  split
  · exact h
  · split
    · exact h
    · rename_i p0 t0 rest hlen
      rcases hEE : envEnsureMapping now e p0 t0.id with ⟨m, e1⟩
      simp only [hEE]
      have hf := envEnsureMapping_frame now e p0 t0.id
      rw [hEE] at hf
      dsimp only at hf
      exact invC7_of_frame P id e _
        (by simp [updateMapping, hf.1])
        (by simp [hf.2.1]) h

theorem invC7_coldStart (P id : String) (ctx : Ctx) (e : Env)
    (h : invC7 P id e) : invC7 P id (coldStart ctx e) := by
  unfold coldStart
  split
  · exact foldlPreserve (invC7 P id) _
      (fun s b hs => invC7_coldGroupStep P id ctx.now s b.2 hs) _ _ h
  · exact h

theorem invC7_terminalStep (P id : String) (now : Time) (e : Env)
    (pt : String × Task) (h : invC7 P id e) :
    invC7 P id (terminalStep now e pt) := by
  obtain ⟨pname, t⟩ := pt
  unfold terminalStep
  dsimp only
  split
  · exact h
  · rcases hEE : envEnsureMapping now e pname t.id with ⟨m, e1⟩
    simp only [hEE]
    have hf := envEnsureMapping_frame now e pname t.id
    rw [hEE] at hf
    dsimp only at hf
    apply foldlPreserve (invC7 P id)
    · intro s kv hs
      dsimp only
      split
      · exact hs
      · exact ⟨isTombstoned_addTombstone_of _ _ _ _ _ _ hs.1, hs.2⟩
    · exact invC7_of_frame P id e _ (by simp [hf.1]) (by simp [hf.2.1]) h

theorem invC7_terminalPass (P id : String) (ctx : Ctx) (e : Env)
    (h : invC7 P id e) : invC7 P id (terminalPass ctx e) :=
  foldlPreserve (invC7 P id) _
    (fun s pt hs => invC7_terminalStep P id ctx.now s pt hs) _ _ h


theorem actionOK_delete (P id : String) (a : SyncAction) (hk : a.kind = .delete) :
    actionOK P id a := by
  constructor
  · intro hc
    rw [hk] at hc
    exact absurd hc (by decide)
  · intro hc
    rw [hk] at hc
    exact absurd hc (by decide)

theorem invC7_addTombstoneFold (P id : String) (now : Time)
    (l : List (String × String)) (e : Env) (h : invC7 P id e) :
    invC7 P id (l.foldl (fun e kv =>
      { e with state := addTombstone e.state kv.1 kv.2 now }) e) := by
  refine foldlPreserve (invC7 P id) _ ?_ _ _ h
  intro s kv hs
  exact ⟨isTombstoned_addTombstone_of _ _ _ _ _ _ hs.1, hs.2⟩

theorem invC7_propagateStep (P id : String) (ctx : Ctx) (e : Env)
    (cid : String) (h : invC7 P id e) : invC7 P id (propagateStep ctx e cid) := by
  unfold propagateStep
  split
  · exact h
  · rename_i m hm
    refine foldlPreserve (invC7 P id) _ ?_ _ _ h
    intro s p hs
    dsimp only
    split
    · exact hs
    · rename_i pid hpid
      split
      · exact hs
      · split
        · have hp := invC7_pushA P id s
            { kind := .delete
              executed := !ctx.dryRun
              sourceProvider := "tombstone"
              sourceId := cid
              targetProvider := p.name
              targetId := some pid
              title := m.canonical.map (fun c => c.title)
              detail := "delete-wins: canonical=" ++ cid }
            hs (actionOK_delete P id _ rfl)
          split
          · exact hp
          · split
            · exact invC7_of_frame P id _ _ rfl rfl hp
            · exact invC7_of_frame P id _ _ rfl rfl hp
        · exact hs

theorem invC7_propagateDeletes (P id : String) (ctx : Ctx) (e : Env)
    (h : invC7 P id e) : invC7 P id (propagateDeletes ctx e) :=
  foldlPreserve (invC7 P id) _
    (fun s cid hs => invC7_propagateStep P id ctx s cid hs) _ _ h

theorem invC7_sweepStep (P id : String) (ctx : Ctx) (e : Env)
    (m : MappingRecord) (h : invC7 P id e) : invC7 P id (sweepStep ctx e m) := by
  unfold sweepStep
  split
  rename_i pm present missing hclass
  split
  · -- orphan branch: tombstone the missing sides, then drop the mapping
    exact invC7_of_frame P id _ _ rfl rfl
      (invC7_addTombstoneFold P id ctx.now missing e h)
  · split
    · -- external-deletion branch
      refine foldlPreserve (invC7 P id) _ ?_ _ _ ?_
      · intro s kv hs
        dsimp only
        split
        · exact hs
        · rename_i provider hprov
          have hp := invC7_pushA P id s
              { kind := .delete
                executed := !ctx.dryRun
                sourceProvider := (missing.headD ("", "")).1
                sourceId := (missing.headD ("", "")).2
                targetProvider := kv.1
                targetId := some kv.2
                title := m.canonical.map (fun c => c.title)
                detail := "external-delete: " ++ joinMissing missing ++ " missing" }
              hs (actionOK_delete P id _ rfl)
          split
          · exact hp
          · split
            · exact invC7_of_frame P id _ _ rfl rfl hp
            · exact invC7_of_frame P id _ _ rfl rfl hp
      · exact invC7_of_frame P id _ _ rfl rfl
          (invC7_addTombstoneFold P id ctx.now (present ++ missing) e h)
    · exact h

theorem invC7_orphanSweep (P id : String) (ctx : Ctx) (e : Env)
    (h : invC7 P id e) : invC7 P id (orphanSweep ctx e) :=
  foldlPreserve (invC7 P id) _
    (fun s m hs => invC7_sweepStep P id ctx s m hs) _ _ h

theorem invC7_ensureAllMapped (P id : String) (ctx : Ctx) (e : Env)
    (h : invC7 P id e) : invC7 P id (ensureAllMapped ctx e) := by
  unfold ensureAllMapped
  refine foldlPreserve (invC7 P id) _ ?_ _ _ h
  intro s pt hs
  rcases hEE : envEnsureMapping ctx.now s pt.1 pt.2.id with ⟨m, e1⟩
  have hf := envEnsureMapping_frame ctx.now s pt.1 pt.2.id
  rw [hEE] at hf
  dsimp only at hf
  exact invC7_of_frame P id s e1 hf.1 hf.2.1 hs


theorem invC7_fanOutStep (P id : String) (ctx : Ctx) (cid : String)
    (canonical : CanonicalData) (e : Env) (target : Provider)
    (h : invC7 P id e) : invC7 P id (fanOutStep ctx cid canonical e target) := by
  unfold fanOutStep
  split
  · exact h
  · rename_i m hm
    dsimp only
    split
    · exact h
    · split
      · have hp := invC7_pushA P id e
          { kind := .create, executed := !ctx.dryRun, sourceProvider := "canonical",
            sourceId := cid, targetProvider := target.name, targetId := none,
            title := some canonical.title, detail := "create from canonical " ++ cid }
          h ⟨fun _ => rfl, fun hk => (nomatch hk)⟩
        split
        · exact hp
        · split
          · exact invC7_of_frame P id _ _ rfl rfl hp
          · exact invC7_of_frame P id _ _ rfl rfl hp
      · split
        · split
          · exact h
          · rename_i hnotts
            have hOK : actionOK P id
                { kind := .recreate, executed := !ctx.dryRun, sourceProvider := "canonical",
                  sourceId := cid, targetProvider := target.name,
                  targetId := some ((bpGet m.byProvider target.name).getD ""),
                  title := some canonical.title,
                  detail := target.name ++ ":" ++ (bpGet m.byProvider target.name).getD "" ++ " missing; recreate" } := by
              refine ⟨fun hk => (nomatch hk), fun _ hPT => ?_⟩
              rcases hPT with ⟨hp1, hp2⟩
              have hp1a : target.name = P := hp1
              have hp2a : some ((bpGet m.byProvider target.name).getD "") = some id := hp2
              have hid : (bpGet m.byProvider target.name).getD "" = id :=
                Option.some.inj hp2a
              exact hnotts (by rw [hid, hp1a]; exact h.1)
            have hp := invC7_pushA P id e _ h hOK
            split
            · exact hp
            · split
              · exact invC7_of_frame P id _ _ rfl rfl hp
              · exact invC7_of_frame P id _ _ rfl rfl hp
        · split
          · exact invC7_pushA P id e _ h
              ⟨fun hk => (nomatch hk), fun hk => (nomatch hk)⟩
          · have hp := invC7_pushA P id e
              { kind := .update, executed := !ctx.dryRun, sourceProvider := "canonical",
                sourceId := cid, targetProvider := target.name,
                targetId := some ((bpGet m.byProvider target.name).getD ""),
                title := some canonical.title, detail := "field-level update" }
              h ⟨fun hk => (nomatch hk), fun hk => (nomatch hk)⟩
            split
            · exact hp
            · split
              · exact invC7_of_frame P id _ _ rfl rfl hp
              · exact invC7_of_frame P id _ _ rfl rfl hp

theorem invC7_mainStep (P id : String) (ctx : Ctx) (e : Env) (i : Nat)
    (h : invC7 P id e) : invC7 P id (mainStep ctx e i) := by
  unfold mainStep
  split
  · exact h
  · rename_i m hm
    dsimp only
    split
    · exact h
    · split
      · exact h
      · rename_i cano confs2 hmerge
        have h1 : invC7 P id { e with
            conflicts := e.conflicts ++ confs2
            state := upsertCanonicalSnapshot e.state m.canonicalId cano ctx.now } :=
          invC7_of_frame P id e _ rfl rfl h
        split
        · exact h1
        · refine foldlPreserve (invC7 P id) _ ?_ _ _ h1
          intro s t hs
          exact invC7_fanOutStep P id ctx m.canonicalId cano s t hs

theorem invC7_mainLoop (P id : String) (ctx : Ctx) (e : Env)
    (h : invC7 P id e) : invC7 P id (mainLoop ctx e) :=
  foldlPreserve (invC7 P id) _
    (fun s i hs => invC7_mainStep P id ctx s i hs) _ _ h

theorem invC7_runPhases (P id : String) (ctx : Ctx) (e : Env)
    (h : invC7 P id e) : invC7 P id (runPhases ctx e) :=
  invC7_mainLoop P id ctx _ (invC7_ensureAllMapped P id ctx _
    (invC7_orphanSweep P id ctx _ (invC7_propagateDeletes P id ctx _
      (invC7_terminalPass P id ctx _ (invC7_coldStart P id ctx _ h)))))


/-- C7.  Tombstone suppression: if `(P, id)` is tombstoned at the start of
the cycle and the tombstone survives the TTL prune, then no action of the
cycle creates or recreates the task id for provider `P`: every `create`
action carries no target id at all (the id will be provider-assigned), and
every `recreate` action — which is only ever pushed when its target id is
not tombstoned, while tombstones are never removed after the prune — has a
target different from `(P, id)`.  Mappings containing the tombstoned id are
skipped by the field-level pass, which is what makes the invariant hold. -/
theorem C7_tombstone_suppression (providers : List Provider) (opts : SyncOptions)
    (state0 : SyncState) (now : Time) (P id : String) (c : CycleResult)
    (hT : isTombstoned (pruneExpiredTombstones state0 (opts.tombstoneTtlDays.getD 30) now) P id = true)
    (hc : syncMany providers opts state0 now = .ok c) :
    ∀ a ∈ c.report.actions,
      (a.kind = .create → a.targetId = none) ∧
      (a.kind = .recreate → ¬(a.targetProvider = P ∧ a.targetId = some id)) := by
  cases providers with
  | nil => simp [syncMany] at hc
  | cons p0 rest =>
    cases rest with
    | nil => simp [syncMany] at hc
    | cons p1 ps =>
      have hc2 : syncCycle p0 (p0 :: p1 :: ps) opts state0 now = c := by
        simpa [syncMany] using hc
      subst hc2
      intro a ha
      have hinv : invC7 P id (runPhases (mkCtx p0 (p0 :: p1 :: ps) opts state0 now)
          (mkEnv (p0 :: p1 :: ps) opts state0 now)) :=
        invC7_runPhases P id _ _ ⟨hT, fun a ha => absurd ha (by simp [mkEnv])⟩
      exact hinv.2 a ha


theorem invC9_of_frame (e e' : Env) (hw : e'.writes = e.writes)
    (ha : e'.actions = e.actions) (h : invC9 e) : invC9 e' := by
  refine ⟨?_, ?_⟩
  · rw [hw]
    exact h.1
  · rw [ha]
    exact h.2

theorem invC9_pushA (e : Env) (a : SyncAction) (h : invC9 e)
    (ha : a.executed = false) : invC9 (pushA e a) := by
  unfold pushA
  split
  · exact h
  · refine ⟨h.1, ?_⟩
    intro x hx
    rcases List.mem_append.mp hx with hx | hx
    · exact h.2 x hx
    · rcases List.mem_singleton.mp hx with rfl
      exact ha

theorem invC9_coldGroupStep (now : Time) (e : Env)
    (g : List (String × Task)) (h : invC9 e) :
    invC9 (coldGroupStep now e g) := by
  unfold coldGroupStep
  split
  · exact h
  · split
    · exact h
    · rename_i p0 t0 rest hlen
      rcases hEE : envEnsureMapping now e p0 t0.id with ⟨m, e1⟩
      simp only [hEE]
      have hf := envEnsureMapping_frame now e p0 t0.id
      rw [hEE] at hf
      dsimp only at hf
      exact invC9_of_frame e _ (by simp [hf.2.2]) (by simp [hf.2.1]) h

theorem invC9_coldStart (ctx : Ctx) (e : Env)
    (h : invC9 e) : invC9 (coldStart ctx e) := by
  unfold coldStart
  split
  · exact foldlPreserve invC9 _
      (fun s b hs => invC9_coldGroupStep ctx.now s b.2 hs) _ _ h
  · exact h

theorem invC9_terminalStep (now : Time) (e : Env)
    (pt : String × Task) (h : invC9 e) :
    invC9 (terminalStep now e pt) := by
  obtain ⟨pname, t⟩ := pt
  unfold terminalStep
  dsimp only
  split
  · exact h
  · rcases hEE : envEnsureMapping now e pname t.id with ⟨m, e1⟩
    simp only [hEE]
    have hf := envEnsureMapping_frame now e pname t.id
    rw [hEE] at hf
    dsimp only at hf
    refine foldlPreserve invC9 _ ?_ _ _ ?_
    · intro s kv hs
      dsimp only
      split
      · exact hs
      · exact invC9_of_frame s _ rfl rfl hs
    · exact invC9_of_frame e _ (by simp [hf.2.2]) (by simp [hf.2.1]) h

theorem invC9_terminalPass (ctx : Ctx) (e : Env)
    (h : invC9 e) : invC9 (terminalPass ctx e) :=
  foldlPreserve invC9 _
    (fun s pt hs => invC9_terminalStep ctx.now s pt hs) _ _ h

theorem invC9_propagateStep (ctx : Ctx) (hDry : ctx.dryRun = true) (e : Env)
    (cid : String) (h : invC9 e) : invC9 (propagateStep ctx e cid) := by
  unfold propagateStep
  split
  · exact h
  · rename_i m hm
    refine foldlPreserve invC9 _ ?_ _ _ h
    intro s p hs
    simp only [hDry, ite_true, Bool.not_true]
    split
    · exact hs
    · rename_i pid hpid
      split
      · exact hs
      · split
        · refine invC9_pushA s _ hs ?_
          rfl
        · exact hs

theorem invC9_propagateDeletes (ctx : Ctx) (hDry : ctx.dryRun = true) (e : Env)
    (h : invC9 e) : invC9 (propagateDeletes ctx e) :=
  foldlPreserve invC9 _
    (fun s cid hs => invC9_propagateStep ctx hDry s cid hs) _ _ h

theorem invC9_addTombstoneFold (now : Time)
    (l : List (String × String)) (e : Env) (h : invC9 e) :
    invC9 (l.foldl (fun e kv =>
      { e with state := addTombstone e.state kv.1 kv.2 now }) e) := by
  refine foldlPreserve invC9 _ ?_ _ _ h
  intro s kv hs
  exact invC9_of_frame s _ rfl rfl hs

theorem invC9_sweepStep (ctx : Ctx) (hDry : ctx.dryRun = true) (e : Env)
    (m : MappingRecord) (h : invC9 e) : invC9 (sweepStep ctx e m) := by
  unfold sweepStep
  split
  rename_i pm present missing hclass
  split
  · exact invC9_of_frame _ _ rfl rfl (invC9_addTombstoneFold ctx.now missing e h)
  · split
    · refine foldlPreserve invC9 _ ?_ _ _ ?_
      · intro s kv hs
        simp only [hDry, ite_true, Bool.not_true]
        split
        · exact hs
        · refine invC9_pushA s _ hs ?_
          rfl
      · exact invC9_of_frame _ _ rfl rfl
          (invC9_addTombstoneFold ctx.now (present ++ missing) e h)
    · exact h

theorem invC9_orphanSweep (ctx : Ctx) (hDry : ctx.dryRun = true) (e : Env)
    (h : invC9 e) : invC9 (orphanSweep ctx e) :=
  foldlPreserve invC9 _
    (fun s m hs => invC9_sweepStep ctx hDry s m hs) _ _ h

theorem invC9_ensureAllMapped (ctx : Ctx) (e : Env)
    (h : invC9 e) : invC9 (ensureAllMapped ctx e) := by
  unfold ensureAllMapped
  refine foldlPreserve invC9 _ ?_ _ _ h
  intro s pt hs
  rcases hEE : envEnsureMapping ctx.now s pt.1 pt.2.id with ⟨m, e1⟩
  have hf := envEnsureMapping_frame ctx.now s pt.1 pt.2.id
  rw [hEE] at hf
  dsimp only at hf
  exact invC9_of_frame s e1 hf.2.2 hf.2.1 hs

theorem invC9_fanOutStep (ctx : Ctx) (hDry : ctx.dryRun = true) (cid : String)
    (canonical : CanonicalData) (e : Env) (target : Provider)
    (h : invC9 e) : invC9 (fanOutStep ctx cid canonical e target) := by
  unfold fanOutStep
  split
  · exact h
  · rename_i m hm
    simp only [hDry, ite_true, Bool.not_true]
    split
    · exact h
    · split
      · exact invC9_pushA e _ h (by rfl)
      · split
        · split
          · exact h
          · exact invC9_pushA e _ h (by rfl)
        · split
          · exact invC9_pushA e _ h (by rfl)
          · exact invC9_pushA e _ h (by rfl)

theorem invC9_mainStep (ctx : Ctx) (hDry : ctx.dryRun = true) (e : Env) (i : Nat)
    (h : invC9 e) : invC9 (mainStep ctx e i) := by
  unfold mainStep
  split
  · exact h
  · rename_i m hm
    dsimp only
    split
    · exact h
    · split
      · exact h
      · rename_i cano confs2 hmerge
        have h1 : invC9 { e with
            conflicts := e.conflicts ++ confs2
            state := upsertCanonicalSnapshot e.state m.canonicalId cano ctx.now } :=
          invC9_of_frame e _ rfl rfl h
        split
        · exact h1
        · refine foldlPreserve invC9 _ ?_ _ _ h1
          intro s t hs
          exact invC9_fanOutStep ctx hDry m.canonicalId cano s t hs

theorem invC9_mainLoop (ctx : Ctx) (hDry : ctx.dryRun = true) (e : Env)
    (h : invC9 e) : invC9 (mainLoop ctx e) :=
  foldlPreserve invC9 _
    (fun s i hs => invC9_mainStep ctx hDry s i hs) _ _ h

theorem invC9_runPhases (ctx : Ctx) (hDry : ctx.dryRun = true) (e : Env)
    (h : invC9 e) : invC9 (runPhases ctx e) :=
  invC9_mainLoop ctx hDry _ (invC9_ensureAllMapped ctx _
    (invC9_orphanSweep ctx hDry _ (invC9_propagateDeletes ctx hDry _
      (invC9_terminalPass ctx _ (invC9_coldStart ctx _ h)))))


/-- C7 witness: a concrete cycle starting from a state with the live
tombstone `("A", "x1")` — it emits one `create` (towards B) — satisfies the
suppression property on every emitted action. -/
theorem C7_witness :
    (syncCycle (okProv "A" [c1TaskA] [c1TaskA]) c7Providers
        {} c7State 100).report.actions.Forall
      (fun a => (a.kind = .create → a.targetId = none) ∧
        (a.kind = .recreate → ¬(a.targetProvider = "A" ∧ a.targetId = some "x1"))) := by
  rw [List.forall_iff_forall_mem]
  exact C7_tombstone_suppression c7Providers {} c7State 100 "A" "x1" _ (by decide) rfl

/-- C9.  Dry-run frame: in every cycle run with `dryRun = true`, no provider
write is performed (`upsertTask` / `deleteTask` are never called — the write
log is empty), the state is not saved, the report is marked dry-run, and
every listed action has `executed = false` (first conjunct); yet the mapping
baselines are still updated in memory: in the completion scenario the final
in-memory state's canonical snapshot carries the merged (completed) value
and the planned update to B is listed unexecuted, while the write log stays
empty and nothing is saved (second conjunct). -/
theorem C9_dry_run :
    (∀ (providers : List Provider) (opts : SyncOptions) (state0 : SyncState)
       (now : Time) (c : CycleResult),
       opts.dryRun = some true →
       syncMany providers opts state0 now = .ok c →
       c.writes = [] ∧ c.saved = false ∧ c.report.dryRun = true ∧
         ∀ a ∈ c.report.actions, a.executed = false) ∧
    (∀ (T : String) (t0 t1 n : Time), (jsTrim T == "") = false →
       (syncMany (c3Providers T t0 t1) { dryRun := some true } (c3State T t0) n).toOption.map
         (fun c => (c.state.mappings.map (fun m => m.canonical),
                    c.report.actions.map (fun a => (a.kind, a.targetProvider, a.executed)),
                    c.writes, c.saved))
       = some ([some (c3Merged T t1)], [(.update, "B", false)], [], false)) := by
  constructor
  · intro providers opts state0 now c hd hc
    cases providers with
    | nil => simp [syncMany] at hc
    | cons p0 rest =>
      cases rest with
      | nil => simp [syncMany] at hc
      | cons p1 ps =>
        have hc2 : syncCycle p0 (p0 :: p1 :: ps) opts state0 now = c := by
          simpa [syncMany] using hc
        subst hc2
        have hDry : (mkCtx p0 (p0 :: p1 :: ps) opts state0 now).dryRun = true := by
          show opts.dryRun.getD false = true
          rw [hd]
          rfl
        have hinv : invC9 (runPhases (mkCtx p0 (p0 :: p1 :: ps) opts state0 now)
            (mkEnv (p0 :: p1 :: ps) opts state0 now)) :=
          invC9_runPhases _ hDry _ ⟨rfl, fun a ha => absurd ha (by simp [mkEnv])⟩
        refine ⟨hinv.1, ?_, ?_, hinv.2⟩
        · show (!(opts.dryRun.getD false)) = false
          rw [hd]
          rfl
        · show (opts.dryRun.getD false) = true
          rw [hd]
          rfl
  · intro T t0 t1 n hT
    simp [syncMany, syncCycle, mkCtx, mkEnv, runPhases, collectSnapshots, collectStep,
      c3Providers, c3State, c3TaskA, c3TaskB, c3Baseline, c3Merged, okProv,
      pruneExpiredTombstones, coldStart, terminalPass, healthyChanges, terminalStep,
      isTerminal, propagateDeletes, orphanSweep, sweepStep, classifyMapping,
      indexHas, snapOf, snapOf?, ensureAllMapped, healthyAll, envEnsureMapping,
      findMapping, bpGet, mainLoop, mainStep, isTombstoned, byProvTaskOf, indexGet,
      mergeMapping, changedFields, fields, fieldEqual, CanonicalData.get, Task.get,
      seedCanonical, resolveField, sortContenders, insertByNewer, CanonicalData.set,
      upsertCanonicalSnapshot, updateMapping, pushA, fanOutStep, taskOfCanonical,
      pickProvidersByMode, hT, normField, dateOnly,
      List.range_succ, List.range_zero, List.foldl_cons, List.foldl_nil,
      List.getElem?_cons_zero, List.getElem?_nil, Except.toOption]

/-- C9 witness: the frame part at a concrete idle dry-run cycle, and the
concrete dry-run completion scenario with its in-memory baseline update. -/
theorem C9_witness :
    ((syncCycle (okProv "A" [] []) [okProv "A" [] [], okProv "B" [] []]
        { dryRun := some true } {} 0).writes = [] ∧
     (syncCycle (okProv "A" [] []) [okProv "A" [] [], okProv "B" [] []]
        { dryRun := some true } {} 0).saved = false ∧
     (syncCycle (okProv "A" [] []) [okProv "A" [] [], okProv "B" [] []]
        { dryRun := some true } {} 0).report.dryRun = true ∧
     ∀ a ∈ (syncCycle (okProv "A" [] []) [okProv "A" [] [], okProv "B" [] []]
        { dryRun := some true } {} 0).report.actions, a.executed = false) ∧
    ((syncMany (c3Providers "Buy milk" 0 1) { dryRun := some true }
        (c3State "Buy milk" 0) 2).toOption.map
      (fun c => (c.state.mappings.map (fun m => m.canonical),
                 c.report.actions.map (fun a => (a.kind, a.targetProvider, a.executed)),
                 c.writes, c.saved))
      = some ([some (c3Merged "Buy milk" 1)], [(.update, "B", false)], [], false)) :=
  ⟨C9_dry_run.1 [okProv "A" [] [], okProv "B" [] []] { dryRun := some true } {} 0 _ rfl rfl,
   C9_dry_run.2 "Buy milk" 0 1 2 (by decide)⟩


end TaskSync
